import Mathlib

/-!
Shallow embedding of the rfp-be-nodejs procurement service: the RFP,
Response and Document models (mongoose schemas with their pre-save hooks
and path validators), and the exposed controller operations together with
the route middleware (role authorization and express-validator checks)
that guards them.

Modelling conventions:
- Wall-clock instants and identifiers are natural numbers.  Each operation
  receives the current time explicitly where the source calls new Date().
- Mongoose document saves run the schema pre-save hooks and then the path
  validators of the whole document (validateModifiedOnly is left at its
  default, so validators run on unmodified paths too).
- Request payloads are records of the body fields declared in the route
  validation middleware (src/middleware/validation.js and the inline
  validators in the route files).  Descriptive text fields (title,
  description, category, budgets, timelines, requirements, and the file
  metadata of documents) are inert for every claim considered here and
  their route bounds imply their schema bounds, so they are omitted,
  except that the proposal text of a Response is kept as a representative
  copied field.
- MongoDB uniqueness: inserting a document whose id already exists fails
  with a duplicate key error, which the embedding surfaces as an error
  before the insert.
-/

namespace RfpBe

abbrev Time := Nat
abbrev UserId := Nat
abbrev RfpId := Nat
abbrev RespId := Nat
abbrev DocId := Nat

/-- User roles accepted at registration (validateUserRegistration). -/
inductive Role where
  | buyer
  | supplier
deriving DecidableEq, Repr

/-- An authenticated user as attached to the request by the authenticate
middleware.  Modelled from the spec: the User model file is not in the
repository snapshot; per the spec a user has an identifier and an
immutable role, which is all the modeled operations consult. -/
structure User where
  id : UserId
  role : Role
deriving DecidableEq, Repr

/-- Status enumeration of rfpSchema. -/
inductive RfpStatus where
  | draft
  | published
  | closed
  | cancelled
deriving DecidableEq, Repr

/-- Status enumeration of responseSchema. -/
inductive RespStatus where
  | draft
  | submitted
  | under_review
  | approved
  | rejected
deriving DecidableEq, Repr

/-- Document type enumeration of documentSchema. -/
inductive DocType where
  | rfp_document
  | response_document
  | attachment
deriving DecidableEq, Repr

/-- An RFP document (rfpSchema), restricted to the fields the modeled
operations read or write. -/
structure RFP where
  id : RfpId
  created_by : UserId
  deadline : Time
  status : RfpStatus
  published_at : Option Time
  response_count : Nat
  document_ids : List DocId
deriving DecidableEq, Repr

/-- A Response document (responseSchema), restricted to the fields the
modeled operations read or write; proposal stands in for the copied
payload text fields. -/
structure Response where
  id : RespId
  rfp_id : RfpId
  submitted_by : UserId
  proposal : String
  status : RespStatus
  submitted_at : Option Time
  reviewed_at : Option Time
  reviewer_notes : Option String
  document_ids : List DocId
deriving DecidableEq, Repr

/-- A Document record (documentSchema), restricted to the linkage fields. -/
structure Document where
  id : DocId
  document_type : DocType
  rfp_id : Option RfpId
  response_id : Option RespId
  uploaded_by : UserId
deriving DecidableEq, Repr

/-- The persistent store: the three MongoDB collections. -/
structure DB where
  rfps : List RFP
  responses : List Response
  documents : List Document
deriving DecidableEq, Repr

def dbEmpty : DB := ⟨[], [], []⟩

/-- Model.findById on the rfps collection. -/
def findRFP (db : DB) (i : RfpId) : Option RFP :=
  db.rfps.find? (fun x => x.id == i)

/-- Model.findById on the responses collection. -/
def findResponse (db : DB) (i : RespId) : Option Response :=
  db.responses.find? (fun x => x.id == i)

/-- Model.findById on the documents collection. -/
def findDocument (db : DB) (i : DocId) : Option Document :=
  db.documents.find? (fun x => x.id == i)

/-- Persisting a mutated RFP document back to its collection (the write
performed by rfp.save after validation succeeded). -/
def putRFP (db : DB) (r : RFP) : DB :=
  { db with rfps := db.rfps.map (fun x => if x.id = r.id then r else x) }

/-- Persisting a mutated Response document back to its collection. -/
def putResponse (db : DB) (r : Response) : DB :=
  { db with responses := db.responses.map (fun x => if x.id = r.id then r else x) }

/-- RFP.findByIdAndUpdate with an atomic response_count increment,
which bypasses schema validators and hooks. -/
def incResponseCount (db : DB) (i : RfpId) : DB :=
  { db with rfps := db.rfps.map (fun x =>
      if x.id = i then { x with response_count := x.response_count + 1 } else x) }

/-- RFP.findByIdAndUpdate pushing a document id onto document_ids. -/
def pushRFPDoc (db : DB) (i : RfpId) (d : DocId) : DB :=
  { db with rfps := db.rfps.map (fun x =>
      if x.id = i then { x with document_ids := x.document_ids ++ [d] } else x) }

/-- Response.findByIdAndUpdate pushing a document id onto document_ids. -/
def pushResponseDoc (db : DB) (i : RespId) (d : DocId) : DB :=
  { db with responses := db.responses.map (fun x =>
      if x.id = i then { x with document_ids := x.document_ids ++ [d] } else x) }

/-- The error outcomes the service can return; constructors follow the
error messages of the controllers, plus validationFailed for both
express-validator rejections and mongoose ValidationError, duplicateKey
for MongoDB unique index violations, and serverFailure for uncaught
exceptions (dereferencing an unpopulated parent reference). -/
inductive ApiError where
  | notFound
  | accessDenied
  | roleNotPermitted
  | cannotRespond
  | rfpExpired
  | responseExists
  | cannotUpdateResponse
  | cannotDeleteResponse
  | cannotSubmitResponse
  | cannotReviewResponse
  | cannotUpdateRFP
  | cannotDeleteRFP
  | cannotPublishRFP
  | cannotCloseRFP
  | rfpIdRequired
  | responseIdRequired
  | validationFailed
  | duplicateKey
  | serverFailure
deriving DecidableEq, Repr

/-- Pre-save hook of rfpSchema: stamp published_at when the status path
was modified to published and published_at is absent. -/
def rfpPreSave (now : Time) (statusModified : Bool) (r : RFP) : RFP :=
  if statusModified = true ∧ r.status = RfpStatus.published ∧ r.published_at = none then
    { r with published_at := some now }
  else r

/-- Path validators of rfpSchema on the modeled fields, run on every
save over the whole document: deadline must be strictly in the future,
and published_at must be present when status is published. -/
def rfpValid (now : Time) (r : RFP) : Bool :=
  decide (now < r.deadline) &&
    (decide (r.status ≠ RfpStatus.published) || decide (r.published_at ≠ none))

/-- rfp.save: run the pre-save hook, then validate; a validator failure
surfaces as a mongoose ValidationError. -/
def rfpSave (now : Time) (statusModified : Bool) (r : RFP) : Except ApiError RFP :=
  let r' := rfpPreSave now statusModified r
  if rfpValid now r' = true then Except.ok r' else Except.error ApiError.validationFailed

/-- Pre-save hook of responseSchema: stamp submitted_at when status was
modified away from draft and is absent; stamp reviewed_at when status was
modified to approved or rejected and is absent. -/
def responsePreSave (now : Time) (statusModified : Bool) (r : Response) : Response :=
  let r1 :=
    if statusModified = true ∧ r.status ≠ RespStatus.draft ∧ r.submitted_at = none then
      { r with submitted_at := some now }
    else r
  if statusModified = true ∧
      (r1.status = RespStatus.approved ∨ r1.status = RespStatus.rejected) ∧
      r1.reviewed_at = none then
    { r1 with reviewed_at := some now }
  else r1

/-- Path validators of responseSchema on the modeled fields: submitted_at
is required when status is not draft, and reviewed_at is required when
status is approved or rejected. -/
def responseValid (r : Response) : Bool :=
  (decide (r.status = RespStatus.draft) || decide (r.submitted_at ≠ none)) &&
    (decide (¬(r.status = RespStatus.approved ∨ r.status = RespStatus.rejected)) ||
      decide (r.reviewed_at ≠ none))

/-- response.save: pre-save hook, then validation. -/
def responseSave (now : Time) (statusModified : Bool) (r : Response) :
    Except ApiError Response :=
  let r' := responsePreSave now statusModified r
  if responseValid r' = true then Except.ok r' else Except.error ApiError.validationFailed

/-- Body fields declared in validateRFP that the modeled operations
consult: deadline is a required field, status an optional one. -/
structure RFPPayload where
  deadline : Time
  status : Option RfpStatus
deriving DecidableEq, Repr

/-- The express-validator custom check on validateRFP: the supplied
deadline must be strictly in the future. -/
def rfpPayloadValid (now : Time) (p : RFPPayload) : Bool :=
  decide (now < p.deadline)

/-- Object.assign of a validated RFP payload onto an RFP document. -/
def assignRFP (r : RFP) (p : RFPPayload) : RFP :=
  let r1 := { r with deadline := p.deadline }
  match p.status with
  | some s => { r1 with status := s }
  | none => r1

/-- Body fields declared in validateResponse that the modeled operations
consult (update payload): proposal is required, status optional. -/
structure ResponsePayload where
  proposal : String
  status : Option RespStatus
deriving DecidableEq, Repr

/-- Create payload: validateResponse plus the required rfp_id checked
inline on the POST /api/responses route. -/
structure ResponseCreatePayload where
  rfp_id : RfpId
  proposal : String
  status : Option RespStatus
deriving DecidableEq, Repr

/-- Object.assign of a validated Response payload onto a Response. -/
def assignResponse (r : Response) (p : ResponsePayload) : Response :=
  let r1 := { r with proposal := p.proposal }
  match p.status with
  | some s => { r1 with status := s }
  | none => r1

/-- Review outcomes admitted by the inline validator on the review
route. -/
inductive ReviewOutcome where
  | approved
  | rejected
  | underReview
deriving DecidableEq, Repr

def ReviewOutcome.toStatus : ReviewOutcome → RespStatus
  | ReviewOutcome.approved => RespStatus.approved
  | ReviewOutcome.rejected => RespStatus.rejected
  | ReviewOutcome.underReview => RespStatus.under_review

/-- Body fields of the document upload route that the linkage logic
consults. -/
structure UploadPayload where
  document_type : DocType
  rfp_id : Option RfpId
  response_id : Option RespId
deriving DecidableEq, Repr

/-- createRFP (POST /api/rfps): route middleware authenticate,
authorize buyer, validateRFP; then the rfpController.createRFP handler.
The fresh MongoDB ObjectId is passed as newId; inserting a taken id
violates the primary unique index. -/
def createRFP (now : Time) (u : User) (newId : RfpId) (p : RFPPayload) (db : DB) :
    Except ApiError DB :=
  if u.role ≠ Role.buyer then Except.error ApiError.roleNotPermitted
  else if rfpPayloadValid now p ≠ true then Except.error ApiError.validationFailed
  else
    let r : RFP := { id := newId, created_by := u.id, deadline := p.deadline,
                     status := p.status.getD RfpStatus.draft, published_at := none,
                     response_count := 0, document_ids := [] }
    match rfpSave now true r with
    | Except.error e => Except.error e
    | Except.ok r' =>
      if (findRFP db newId).isSome then Except.error ApiError.duplicateKey
      else Except.ok { db with rfps := db.rfps ++ [r'] }

/-- updateRFP (PUT /api/rfps/:id): authenticate, authorize buyer,
validateRFP; find (404), ownership (403), guard against closed or
cancelled status (400), Object.assign of the payload, save. -/
def updateRFP (now : Time) (u : User) (i : RfpId) (p : RFPPayload) (db : DB) :
    Except ApiError DB :=
  if u.role ≠ Role.buyer then Except.error ApiError.roleNotPermitted
  else if rfpPayloadValid now p ≠ true then Except.error ApiError.validationFailed
  else
    match findRFP db i with
    | none => Except.error ApiError.notFound
    | some r =>
      if r.created_by ≠ u.id then Except.error ApiError.accessDenied
      else if r.status = RfpStatus.closed ∨ r.status = RfpStatus.cancelled then
        Except.error ApiError.cannotUpdateRFP
      else
        let r1 := assignRFP r p
        match rfpSave now (decide (r1.status ≠ r.status)) r1 with
        | Except.error e => Except.error e
        | Except.ok r2 => Except.ok (putRFP db r2)

/-- publishRFP (POST /api/rfps/:id/publish): find, ownership, only draft
RFPs can be published; sets status to published, stamps published_at,
saves. -/
def publishRFP (now : Time) (u : User) (i : RfpId) (db : DB) : Except ApiError DB :=
  if u.role ≠ Role.buyer then Except.error ApiError.roleNotPermitted
  else
    match findRFP db i with
    | none => Except.error ApiError.notFound
    | some r =>
      if r.created_by ≠ u.id then Except.error ApiError.accessDenied
      else if r.status ≠ RfpStatus.draft then Except.error ApiError.cannotPublishRFP
      else
        let r1 := { r with status := RfpStatus.published, published_at := some now }
        match rfpSave now true r1 with
        | Except.error e => Except.error e
        | Except.ok r2 => Except.ok (putRFP db r2)

/-- closeRFP (POST /api/rfps/:id/close): find, ownership, only published
RFPs can be closed; sets status to closed and saves. -/
def closeRFP (now : Time) (u : User) (i : RfpId) (db : DB) : Except ApiError DB :=
  if u.role ≠ Role.buyer then Except.error ApiError.roleNotPermitted
  else
    match findRFP db i with
    | none => Except.error ApiError.notFound
    | some r =>
      if r.created_by ≠ u.id then Except.error ApiError.accessDenied
      else if r.status ≠ RfpStatus.published then Except.error ApiError.cannotCloseRFP
      else
        let r1 := { r with status := RfpStatus.closed }
        match rfpSave now true r1 with
        | Except.error e => Except.error e
        | Except.ok r2 => Except.ok (putRFP db r2)

/-- deleteRFP (DELETE /api/rfps/:id): find, ownership, only draft RFPs
can be deleted; findByIdAndDelete removes the record without running
schema validation. -/
def deleteRFP (u : User) (i : RfpId) (db : DB) : Except ApiError DB :=
  if u.role ≠ Role.buyer then Except.error ApiError.roleNotPermitted
  else
    match findRFP db i with
    | none => Except.error ApiError.notFound
    | some r =>
      if r.created_by ≠ u.id then Except.error ApiError.accessDenied
      else if r.status ≠ RfpStatus.draft then Except.error ApiError.cannotDeleteRFP
      else Except.ok { db with rfps := db.rfps.filter (fun x => x.id ≠ i) }

/-- getRFPById (GET /api/rfps/:id): optionalAuth, so the actor may be
anonymous; a draft RFP is returned only to its owner, every other RFP is
returned to any caller. -/
def getRFPById (u : Option User) (i : RfpId) (db : DB) : Except ApiError RFP :=
  match findRFP db i with
  | none => Except.error ApiError.notFound
  | some r =>
    let ownerOk := match u with
      | none => false
      | some x => decide (r.created_by = x.id)
    if r.status = RfpStatus.draft ∧ ownerOk = false then Except.error ApiError.accessDenied
    else Except.ok r

/-- Query parameters of GET /api/rfps that the modeled filter consults;
the default listing has no status filter and my_rfps unset.  The
category and search regular-expression filters are inert for the claims
and omitted. -/
structure RFPListQuery where
  status : Option RfpStatus
  my_rfps : Bool
deriving DecidableEq, Repr

def defaultRFPQuery : RFPListQuery := ⟨none, false⟩

/-- The filter object built by getAllRFPs: a query status filter, then
for suppliers forced status published with an unexpired deadline
(overwriting the query status), and for buyers with my_rfps the
created_by restriction. -/
def rfpListFilter (now : Time) (u : Option User) (q : RFPListQuery) (r : RFP) : Bool :=
  let statusOk := match q.status with
    | some s => decide (r.status = s)
    | none => true
  match u with
  | none => statusOk
  | some x =>
    if x.role = Role.supplier then
      decide (r.status = RfpStatus.published) && decide (now < r.deadline)
    else
      statusOk &&
        (if x.role = Role.buyer ∧ q.my_rfps = true then decide (r.created_by = x.id) else true)

/-- getAllRFPs (GET /api/rfps): optionalAuth; returns the collection
filtered by rfpListFilter (pagination omitted: the claims concern
membership in the listing). -/
def getAllRFPs (now : Time) (u : Option User) (q : RFPListQuery) (db : DB) : List RFP :=
  db.rfps.filter (rfpListFilter now u q)

/-- Response.findOne on the (rfp_id, submitted_by) pair: the duplicate
check of createResponse, also the pair governed by the unique compound
index of responseSchema. -/
def existingResponse (db : DB) (ri : RfpId) (uid : UserId) : Option Response :=
  db.responses.find? (fun x => x.rfp_id == ri && x.submitted_by == uid)

/-- createResponse (POST /api/responses): authenticate, authorize
supplier, validateResponse; the parent RFP must exist (404), be
published (400), and have an unexpired deadline (400); a duplicate
response by the same submitter is a conflict (400); the new response is
saved and, when it was created directly as submitted, the parent
response_count is atomically incremented. -/
def createResponse (now : Time) (u : User) (newId : RespId) (p : ResponseCreatePayload)
    (db : DB) : Except ApiError DB :=
  if u.role ≠ Role.supplier then Except.error ApiError.roleNotPermitted
  else
    match findRFP db p.rfp_id with
    | none => Except.error ApiError.notFound
    | some rfp =>
      if rfp.status ≠ RfpStatus.published then Except.error ApiError.cannotRespond
      else if rfp.deadline < now then Except.error ApiError.rfpExpired
      else if (existingResponse db p.rfp_id u.id).isSome then
        Except.error ApiError.responseExists
      else
        let r : Response := { id := newId, rfp_id := p.rfp_id, submitted_by := u.id,
                              proposal := p.proposal,
                              status := p.status.getD RespStatus.draft,
                              submitted_at := none, reviewed_at := none,
                              reviewer_notes := none, document_ids := [] }
        match responseSave now true r with
        | Except.error e => Except.error e
        | Except.ok r' =>
          if (findResponse db newId).isSome then Except.error ApiError.duplicateKey
          else
            let db1 : DB := { db with responses := db.responses ++ [r'] }
            if r'.status = RespStatus.submitted then
              Except.ok (incResponseCount db1 p.rfp_id)
            else Except.ok db1

/-- updateResponse (PUT /api/responses/:id): authenticate, authorize
supplier, validateResponse; find (404), ownership (403), guard against
approved or rejected status (400), parent deadline check (400, after
dereferencing the populated parent, which is a server failure when the
parent RFP record is gone), Object.assign of the payload, save, and the
response_count increment when the status moved from draft to
submitted. -/
def updateResponse (now : Time) (u : User) (i : RespId) (p : ResponsePayload) (db : DB) :
    Except ApiError DB :=
  if u.role ≠ Role.supplier then Except.error ApiError.roleNotPermitted
  else
    match findResponse db i with
    | none => Except.error ApiError.notFound
    | some r =>
      if r.submitted_by ≠ u.id then Except.error ApiError.accessDenied
      else if r.status = RespStatus.approved ∨ r.status = RespStatus.rejected then
        Except.error ApiError.cannotUpdateResponse
      else
        match findRFP db r.rfp_id with
        | none => Except.error ApiError.serverFailure
        | some rfp =>
          if rfp.deadline < now then Except.error ApiError.rfpExpired
          else
            let r1 := assignResponse r p
            match responseSave now (decide (r1.status ≠ r.status)) r1 with
            | Except.error e => Except.error e
            | Except.ok r2 =>
              let db1 := putResponse db r2
              if r.status = RespStatus.draft ∧ r2.status = RespStatus.submitted then
                Except.ok (incResponseCount db1 r.rfp_id)
              else Except.ok db1

/-- deleteResponse (DELETE /api/responses/:id): find, ownership, only
draft responses can be deleted; findByIdAndDelete removes the record.
The parent response_count is not touched. -/
def deleteResponse (u : User) (i : RespId) (db : DB) : Except ApiError DB :=
  if u.role ≠ Role.supplier then Except.error ApiError.roleNotPermitted
  else
    match findResponse db i with
    | none => Except.error ApiError.notFound
    | some r =>
      if r.submitted_by ≠ u.id then Except.error ApiError.accessDenied
      else if r.status ≠ RespStatus.draft then Except.error ApiError.cannotDeleteResponse
      else Except.ok { db with responses := db.responses.filter (fun x => x.id ≠ i) }

/-- submitResponse (POST /api/responses/:id/submit): find, ownership,
only draft responses can be submitted, parent deadline check; stamps
submitted_at, sets status submitted, saves, and increments the parent
response_count. -/
def submitResponse (now : Time) (u : User) (i : RespId) (db : DB) : Except ApiError DB :=
  if u.role ≠ Role.supplier then Except.error ApiError.roleNotPermitted
  else
    match findResponse db i with
    | none => Except.error ApiError.notFound
    | some r =>
      if r.submitted_by ≠ u.id then Except.error ApiError.accessDenied
      else if r.status ≠ RespStatus.draft then Except.error ApiError.cannotSubmitResponse
      else
        match findRFP db r.rfp_id with
        | none => Except.error ApiError.serverFailure
        | some rfp =>
          if rfp.deadline < now then Except.error ApiError.rfpExpired
          else
            let r1 := { r with status := RespStatus.submitted, submitted_at := some now }
            match responseSave now true r1 with
            | Except.error e => Except.error e
            | Except.ok r2 => Except.ok (incResponseCount (putResponse db r2) r.rfp_id)

/-- reviewResponse (POST /api/responses/:id/review): authenticate,
authorize buyer, inline outcome validator; find (404), dereference the
populated parent, ownership of the parent RFP (403), guard that the
status is submitted or under_review (400); sets the status to the
requested outcome, records reviewer_notes, stamps reviewed_at
unconditionally, and saves. -/
def reviewResponse (now : Time) (u : User) (i : RespId) (outcome : ReviewOutcome)
    (notes : Option String) (db : DB) : Except ApiError DB :=
  if u.role ≠ Role.buyer then Except.error ApiError.roleNotPermitted
  else
    match findResponse db i with
    | none => Except.error ApiError.notFound
    | some r =>
      match findRFP db r.rfp_id with
      | none => Except.error ApiError.serverFailure
      | some rfp =>
        if rfp.created_by ≠ u.id then Except.error ApiError.accessDenied
        else if ¬(r.status = RespStatus.submitted ∨ r.status = RespStatus.under_review) then
          Except.error ApiError.cannotReviewResponse
        else
          let r1 := { r with
                      status := outcome.toStatus,
                      reviewer_notes := notes,
                      reviewed_at := some now }
          match responseSave now (decide (r1.status ≠ r.status)) r1 with
          | Except.error e => Except.error e
          | Except.ok r2 => Except.ok (putResponse db r2)

/-- The rfp_id verification block of uploadDocument: when an rfp_id is
supplied, the RFP must exist and be owned by the uploader. -/
def checkRFPOwner (u : User) (o : Option RfpId) (db : DB) : Except ApiError Unit :=
  match o with
  | none => Except.ok ()
  | some ri =>
    match findRFP db ri with
    | none => Except.error ApiError.notFound
    | some rfp =>
      if rfp.created_by ≠ u.id then Except.error ApiError.accessDenied
      else Except.ok ()

/-- The response_id verification block of uploadDocument: when a
response_id is supplied, the Response must exist and be owned by the
uploader. -/
def checkResponseOwner (u : User) (o : Option RespId) (db : DB) : Except ApiError Unit :=
  match o with
  | none => Except.ok ()
  | some pi =>
    match findResponse db pi with
    | none => Except.error ApiError.notFound
    | some resp =>
      if resp.submitted_by ≠ u.id then Except.error ApiError.accessDenied
      else Except.ok ()

/-- uploadDocument (POST /api/documents/upload): authenticate only (no
role gate); the documentType/parent-id checks, then ownership of each
supplied parent, then the Document record is persisted and its id pushed
onto the document_ids of every supplied parent. -/
def uploadDocument (u : User) (newId : DocId) (p : UploadPayload) (db : DB) :
    Except ApiError DB :=
  if p.document_type = DocType.rfp_document ∧ p.rfp_id = none then
    Except.error ApiError.rfpIdRequired
  else if p.document_type = DocType.response_document ∧ p.response_id = none then
    Except.error ApiError.responseIdRequired
  else
    match checkRFPOwner u p.rfp_id db with
    | Except.error e => Except.error e
    | Except.ok _ =>
      match checkResponseOwner u p.response_id db with
      | Except.error e => Except.error e
      | Except.ok _ =>
        if (findDocument db newId).isSome then Except.error ApiError.duplicateKey
        else
          let d : Document := { id := newId, document_type := p.document_type,
                                rfp_id := p.rfp_id, response_id := p.response_id,
                                uploaded_by := u.id }
          let db1 : DB := { db with documents := db.documents ++ [d] }
          let db2 := match p.rfp_id with
            | some ri => pushRFPDoc db1 ri d.id
            | none => db1
          let db3 := match p.response_id with
            | some pi => pushResponseDoc db2 pi d.id
            | none => db2
          Except.ok db3

/-- The exposed mutating operations, with their inputs. -/
inductive Op where
  | opCreateRFP (now : Time) (u : User) (newId : RfpId) (p : RFPPayload)
  | opUpdateRFP (now : Time) (u : User) (i : RfpId) (p : RFPPayload)
  | opPublishRFP (now : Time) (u : User) (i : RfpId)
  | opCloseRFP (now : Time) (u : User) (i : RfpId)
  | opDeleteRFP (u : User) (i : RfpId)
  | opCreateResponse (now : Time) (u : User) (newId : RespId) (p : ResponseCreatePayload)
  | opUpdateResponse (now : Time) (u : User) (i : RespId) (p : ResponsePayload)
  | opDeleteResponse (u : User) (i : RespId)
  | opSubmitResponse (now : Time) (u : User) (i : RespId)
  | opReviewResponse (now : Time) (u : User) (i : RespId) (o : ReviewOutcome)
      (notes : Option String)
  | opUploadDocument (u : User) (newId : DocId) (p : UploadPayload)
deriving DecidableEq, Repr

/-- Dispatch an operation against the store. -/
def runOp : Op → DB → Except ApiError DB
  | Op.opCreateRFP now u newId p, db => createRFP now u newId p db
  | Op.opUpdateRFP now u i p, db => updateRFP now u i p db
  | Op.opPublishRFP now u i, db => publishRFP now u i db
  | Op.opCloseRFP now u i, db => closeRFP now u i db
  | Op.opDeleteRFP u i, db => deleteRFP u i db
  | Op.opCreateResponse now u newId p, db => createResponse now u newId p db
  | Op.opUpdateResponse now u i p, db => updateResponse now u i p db
  | Op.opDeleteResponse u i, db => deleteResponse u i db
  | Op.opSubmitResponse now u i, db => submitResponse now u i db
  | Op.opReviewResponse now u i o notes, db => reviewResponse now u i o notes db
  | Op.opUploadDocument u newId p, db => uploadDocument u newId p db

/-- The store after an operation: a failed operation returns an error
response before any write, leaving the store unchanged. -/
def applyOp (o : Op) (db : DB) : DB :=
  match runOp o db with
  | Except.ok db' => db'
  | Except.error _ => db

/-! A concrete execution trace used by the counterexamples and
witnesses below: a buyer creates and publishes an RFP, a supplier
responds and submits, the buyer reviews with outcome under_review, and
the supplier then updates the response back to submitted. -/

def buyer1 : User := ⟨1, Role.buyer⟩

def supplier2 : User := ⟨2, Role.supplier⟩

/-- Time 0: buyer 1 creates RFP 1 with deadline 100. -/
def dbA : DB := applyOp (Op.opCreateRFP 0 buyer1 1 ⟨100, none⟩) dbEmpty

/-- Time 1: buyer 1 publishes RFP 1. -/
def dbB : DB := applyOp (Op.opPublishRFP 1 buyer1 1) dbA

/-- Time 2: supplier 2 creates draft Response 1 to RFP 1. -/
def dbC : DB := applyOp (Op.opCreateResponse 2 supplier2 1 ⟨1, "proposal text", none⟩) dbB

/-- Time 3: supplier 2 submits Response 1. -/
def dbD : DB := applyOp (Op.opSubmitResponse 3 supplier2 1) dbC

/-- Time 4: buyer 1 reviews Response 1 with outcome under_review. -/
def dbE : DB := applyOp (Op.opReviewResponse 4 buyer1 1 ReviewOutcome.underReview
  (some "needs work")) dbD

/-- Time 5: supplier 2 updates Response 1, setting status submitted again. -/
def dbF : DB := applyOp (Op.opUpdateResponse 5 supplier2 1
  ⟨"proposal text", some RespStatus.submitted⟩) dbE

/-- Time 2 (branch from dbB): buyer 1 closes RFP 1 while its deadline is
still in the future. -/
def dbClosed : DB := applyOp (Op.opCloseRFP 2 buyer1 1) dbB

/-- Time 3 (branch from dbC): buyer 1 closes RFP 1 after the draft
Response 1 was created, with the deadline still in the future. -/
def dbClosedWithResponse : DB := applyOp (Op.opCloseRFP 3 buyer1 1) dbC

/-- Branch: a create request whose validated payload carries status
cancelled. -/
def dbCancelledAtBirth : DB :=
  applyOp (Op.opCreateRFP 0 buyer1 1 ⟨100, some RfpStatus.cancelled⟩) dbEmpty

/-- Branch from dbC: buyer 1 uploads an attachment document with neither
parent id supplied. -/
def dbOrphanDoc : DB :=
  applyOp (Op.opUploadDocument buyer1 7 ⟨DocType.attachment, none, none⟩) dbC

/-! Helper lemmas about finding records by id in a collection after the
basic store mutations. -/

theorem find?_rfp_map (f : RFP → RFP) (hf : ∀ x, (f x).id = x.id) (l : List RFP)
    (i : RfpId) :
    (l.map f).find? (fun x => x.id == i) = (l.find? (fun x => x.id == i)).map f := by
  have hp : ((fun x => x.id == i) ∘ f) = (fun x : RFP => x.id == i) := by
    funext x
    simp [Function.comp, hf]
  rw [List.find?_map, hp]

theorem find?_resp_map (f : Response → Response) (hf : ∀ x, (f x).id = x.id)
    (l : List Response) (i : RespId) :
    (l.map f).find? (fun x => x.id == i) = (l.find? (fun x => x.id == i)).map f := by
  have hp : ((fun x => x.id == i) ∘ f) = (fun x : Response => x.id == i) := by
    funext x
    simp [Function.comp, hf]
  rw [List.find?_map, hp]

theorem findRFP_put (db : DB) (r2 : RFP) (i : RfpId) :
    findRFP (putRFP db r2) i =
      (findRFP db i).map (fun x => if x.id = r2.id then r2 else x) := by
  unfold findRFP putRFP
  exact find?_rfp_map _ (fun x => by by_cases h : x.id = r2.id <;> simp [h]) _ _

theorem findRFP_inc (db : DB) (j i : RfpId) :
    findRFP (incResponseCount db j) i =
      (findRFP db i).map (fun x =>
        if x.id = j then { x with response_count := x.response_count + 1 } else x) := by
  unfold findRFP incResponseCount
  exact find?_rfp_map _ (fun x => by by_cases h : x.id = j <;> simp [h]) _ _

theorem findRFP_pushDoc (db : DB) (j : RfpId) (d : DocId) (i : RfpId) :
    findRFP (pushRFPDoc db j d) i =
      (findRFP db i).map (fun x =>
        if x.id = j then { x with document_ids := x.document_ids ++ [d] } else x) := by
  unfold findRFP pushRFPDoc
  exact find?_rfp_map _ (fun x => by by_cases h : x.id = j <;> simp [h]) _ _

theorem findResponse_put (db : DB) (r2 : Response) (i : RespId) :
    findResponse (putResponse db r2) i =
      (findResponse db i).map (fun x => if x.id = r2.id then r2 else x) := by
  unfold findResponse putResponse
  exact find?_resp_map _ (fun x => by by_cases h : x.id = r2.id <;> simp [h]) _ _

theorem findResponse_pushDoc (db : DB) (j : RespId) (d : DocId) (i : RespId) :
    findResponse (pushResponseDoc db j d) i =
      (findResponse db i).map (fun x =>
        if x.id = j then { x with document_ids := x.document_ids ++ [d] } else x) := by
  unfold findResponse pushResponseDoc
  exact find?_resp_map _ (fun x => by by_cases h : x.id = j <;> simp [h]) _ _

theorem findRFP_append (db : DB) (rNew : RFP) (i : RfpId) :
    findRFP { db with rfps := db.rfps ++ [rNew] } i =
      (findRFP db i).or ([rNew].find? (fun x => x.id == i)) := by
  unfold findRFP
  exact List.find?_append

theorem findRFP_erase (db : DB) (j i : RfpId) :
    findRFP { db with rfps := db.rfps.filter (fun x => x.id ≠ j) } i =
      if i = j then none else findRFP db i := by
  unfold findRFP
  dsimp only
  rw [List.find?_filter]
  split
  · next hij =>
    subst hij
    rw [List.find?_eq_none]
    intro x _
    simp only [decide_eq_true_eq, not_and]
    intro hx
    simp_all
  · next hij =>
    congr 1
    funext x
    by_cases hx : x.id = i <;> simp_all

theorem findResponse_append (db : DB) (rNew : Response) (i : RespId) :
    findResponse { db with responses := db.responses ++ [rNew] } i =
      (findResponse db i).or ([rNew].find? (fun x => x.id == i)) := by
  unfold findResponse
  exact List.find?_append

theorem findResponse_erase (db : DB) (j i : RespId) :
    findResponse { db with responses := db.responses.filter (fun x => x.id ≠ j) } i =
      if i = j then none else findResponse db i := by
  unfold findResponse
  dsimp only
  rw [List.find?_filter]
  split
  · next hij =>
    subst hij
    rw [List.find?_eq_none]
    intro x _
    simp only [decide_eq_true_eq, not_and]
    intro hx
    simp_all
  · next hij =>
    congr 1
    funext x
    by_cases hx : x.id = i <;> simp_all

theorem findRFP_id {db : DB} {i : RfpId} {r : RFP} (h : findRFP db i = some r) :
    r.id = i := by
  have := List.find?_some h
  simpa using this

theorem findResponse_id {db : DB} {i : RespId} {r : Response}
    (h : findResponse db i = some r) : r.id = i := by
  have := List.find?_some h
  simpa using this

/-- The collection a response-side mutation leaves untouched. -/
theorem findRFP_putResponse (db : DB) (r2 : Response) (i : RfpId) :
    findRFP (putResponse db r2) i = findRFP db i := rfl

theorem findRFP_pushRespDoc (db : DB) (j : RespId) (d : DocId) (i : RfpId) :
    findRFP (pushResponseDoc db j d) i = findRFP db i := rfl

theorem findResponse_putRFP (db : DB) (r2 : RFP) (i : RespId) :
    findResponse (putRFP db r2) i = findResponse db i := rfl

theorem findResponse_inc (db : DB) (j : RfpId) (i : RespId) :
    findResponse (incResponseCount db j) i = findResponse db i := rfl

/-! Facts about the save pipeline of the two schemas. -/

theorem rfpPreSave_fields (now : Time) (m : Bool) (r : RFP) :
    (rfpPreSave now m r).id = r.id ∧
    (rfpPreSave now m r).created_by = r.created_by ∧
    (rfpPreSave now m r).deadline = r.deadline ∧
    (rfpPreSave now m r).status = r.status ∧
    (rfpPreSave now m r).response_count = r.response_count ∧
    (rfpPreSave now m r).document_ids = r.document_ids := by
  unfold rfpPreSave
  split <;> simp

theorem rfpPreSave_published_at (now : Time) (m : Bool) (r : RFP) :
    (rfpPreSave now m r).published_at = r.published_at ∨
    (rfpPreSave now m r).published_at = some now := by
  unfold rfpPreSave
  split <;> simp

theorem rfpSave_ok {now : Time} {m : Bool} {r r' : RFP}
    (h : rfpSave now m r = Except.ok r') :
    r' = rfpPreSave now m r ∧ rfpValid now r' = true := by
  simp only [rfpSave] at h
  split at h
  · next hv =>
    injection h with h1
    exact ⟨h1.symm, h1 ▸ hv⟩
  · exact absurd h (by simp)

theorem rfpValid_deadline {now : Time} {r : RFP} (h : rfpValid now r = true) :
    now < r.deadline := by
  simp only [rfpValid, Bool.and_eq_true, Bool.or_eq_true, decide_eq_true_eq] at h
  exact h.1

theorem rfpValid_published {now : Time} {r : RFP} (h : rfpValid now r = true) :
    r.status = RfpStatus.published → r.published_at ≠ none := by
  simp only [rfpValid, Bool.and_eq_true, Bool.or_eq_true, decide_eq_true_eq] at h
  intro hs
  rcases h.2 with h2 | h2
  · exact absurd hs h2
  · exact h2

theorem responsePreSave_fields (now : Time) (m : Bool) (r : Response) :
    (responsePreSave now m r).id = r.id ∧
    (responsePreSave now m r).rfp_id = r.rfp_id ∧
    (responsePreSave now m r).submitted_by = r.submitted_by ∧
    (responsePreSave now m r).status = r.status ∧
    (responsePreSave now m r).proposal = r.proposal ∧
    (responsePreSave now m r).reviewer_notes = r.reviewer_notes ∧
    (responsePreSave now m r).document_ids = r.document_ids := by
  simp only [responsePreSave]
  split <;> split <;> simp_all

theorem responsePreSave_reviewed_at (now : Time) (m : Bool) (r : Response) :
    (responsePreSave now m r).reviewed_at = r.reviewed_at ∨
    (responsePreSave now m r).reviewed_at = some now := by
  simp only [responsePreSave]
  split <;> split <;> simp_all

theorem responseSave_ok {now : Time} {m : Bool} {r r' : Response}
    (h : responseSave now m r = Except.ok r') :
    r' = responsePreSave now m r ∧ responseValid r' = true := by
  simp only [responseSave] at h
  split at h
  · next hv =>
    injection h with h1
    exact ⟨h1.symm, h1 ▸ hv⟩
  · exact absurd h (by simp)

theorem responseValid_submitted {r : Response} (h : responseValid r = true) :
    r.status ≠ RespStatus.draft → r.submitted_at ≠ none := by
  simp only [responseValid, Bool.and_eq_true, Bool.or_eq_true, decide_eq_true_eq] at h
  intro hs
  rcases h.1 with h1 | h1
  · exact absurd h1 hs
  · exact h1

theorem responseValid_reviewed {r : Response} (h : responseValid r = true) :
    r.status = RespStatus.approved ∨ r.status = RespStatus.rejected →
      r.reviewed_at ≠ none := by
  simp only [responseValid, Bool.and_eq_true, Bool.or_eq_true, decide_eq_true_eq] at h
  intro hs
  rcases h.2 with h2 | h2
  · exact absurd hs h2
  · exact h2

/-! Inversion lemmas: what a successful run of each operation tells us
about its inputs and resulting store. -/

theorem createRFP_ok {now : Time} {u : User} {nid : RfpId} {p : RFPPayload} {db db' : DB}
    (h : createRFP now u nid p db = Except.ok db') :
    u.role = Role.buyer ∧ findRFP db nid = none ∧
    ∃ r1 : RFP, db' = { db with rfps := db.rfps ++ [r1] } ∧
      r1.id = nid ∧ r1.created_by = u.id ∧ r1.deadline = p.deadline ∧
      r1.status = p.status.getD RfpStatus.draft ∧ r1.response_count = 0 ∧
      rfpValid now r1 = true := by
  simp only [createRFP] at h
  split at h
  · exact absurd h (by simp)
  next hrole =>
  split at h
  · exact absurd h (by simp)
  split at h
  · exact absurd h (by simp)
  next r1 hsave =>
  split at h
  · exact absurd h (by simp)
  next hdup =>
  injection h with h1
  obtain ⟨hpre, hval⟩ := rfpSave_ok hsave
  refine ⟨not_ne_iff.mp hrole, Option.not_isSome_iff_eq_none.mp (by simpa using hdup),
    r1, h1.symm, ?_, ?_, ?_, ?_, ?_, hval⟩ <;>
    simp [hpre, rfpPreSave_fields]

theorem updateRFP_ok {now : Time} {u : User} {i : RfpId} {p : RFPPayload} {db db' : DB}
    (h : updateRFP now u i p db = Except.ok db') :
    u.role = Role.buyer ∧ now < p.deadline ∧
    ∃ rOld r2 : RFP, findRFP db i = some rOld ∧ rOld.created_by = u.id ∧
      ¬(rOld.status = RfpStatus.closed ∨ rOld.status = RfpStatus.cancelled) ∧
      db' = putRFP db r2 ∧ r2.id = rOld.id ∧ r2.created_by = rOld.created_by ∧
      r2.response_count = rOld.response_count ∧ r2.deadline = p.deadline ∧
      r2.status = p.status.getD rOld.status ∧ rfpValid now r2 = true := by
  simp only [updateRFP] at h
  split at h
  · exact absurd h (by simp)
  next hrole =>
  split at h
  · exact absurd h (by simp)
  next hpv =>
  split at h
  · exact absurd h (by simp)
  next rOld hfind =>
  split at h
  · exact absurd h (by simp)
  next hown =>
  split at h
  · exact absurd h (by simp)
  next hguard =>
  split at h
  · exact absurd h (by simp)
  next r2 hsave =>
  injection h with h1
  obtain ⟨hpre, hval⟩ := rfpSave_ok hsave
  have hpvalid : rfpPayloadValid now p = true := not_ne_iff.mp hpv
  refine ⟨not_ne_iff.mp hrole, by simpa [rfpPayloadValid] using hpvalid,
    rOld, r2, hfind, not_ne_iff.mp hown, hguard, h1.symm, ?_, ?_, ?_, ?_, ?_, hval⟩ <;>
    simp [hpre, rfpPreSave_fields, assignRFP] <;>
    cases p.status <;> simp [assignRFP]

theorem publishRFP_ok {now : Time} {u : User} {i : RfpId} {db db' : DB}
    (h : publishRFP now u i db = Except.ok db') :
    u.role = Role.buyer ∧
    ∃ rOld r2 : RFP, findRFP db i = some rOld ∧ rOld.created_by = u.id ∧
      rOld.status = RfpStatus.draft ∧
      db' = putRFP db r2 ∧ r2.id = rOld.id ∧ r2.created_by = rOld.created_by ∧
      r2.response_count = rOld.response_count ∧ r2.deadline = rOld.deadline ∧
      r2.status = RfpStatus.published ∧ r2.published_at = some now ∧
      rfpValid now r2 = true := by
  simp only [publishRFP] at h
  split at h
  · exact absurd h (by simp)
  next hrole =>
  split at h
  · exact absurd h (by simp)
  next rOld hfind =>
  split at h
  · exact absurd h (by simp)
  next hown =>
  split at h
  · exact absurd h (by simp)
  next hguard =>
  split at h
  · exact absurd h (by simp)
  next r2 hsave =>
  injection h with h1
  obtain ⟨hpre, hval⟩ := rfpSave_ok hsave
  have hps : rfpPreSave now true
      { rOld with status := RfpStatus.published, published_at := some now } =
      { rOld with status := RfpStatus.published, published_at := some now } := by
    simp [rfpPreSave]
  refine ⟨not_ne_iff.mp hrole, rOld, r2, hfind, not_ne_iff.mp hown, not_ne_iff.mp hguard,
    h1.symm, ?_, ?_, ?_, ?_, ?_, ?_, hval⟩ <;>
    simp [hpre, hps]

theorem closeRFP_ok {now : Time} {u : User} {i : RfpId} {db db' : DB}
    (h : closeRFP now u i db = Except.ok db') :
    u.role = Role.buyer ∧
    ∃ rOld r2 : RFP, findRFP db i = some rOld ∧ rOld.created_by = u.id ∧
      rOld.status = RfpStatus.published ∧
      db' = putRFP db r2 ∧ r2.id = rOld.id ∧ r2.created_by = rOld.created_by ∧
      r2.response_count = rOld.response_count ∧ r2.deadline = rOld.deadline ∧
      r2.status = RfpStatus.closed ∧ r2.published_at = rOld.published_at ∧
      rfpValid now r2 = true := by
  simp only [closeRFP] at h
  split at h
  · exact absurd h (by simp)
  next hrole =>
  split at h
  · exact absurd h (by simp)
  next rOld hfind =>
  split at h
  · exact absurd h (by simp)
  next hown =>
  split at h
  · exact absurd h (by simp)
  next hguard =>
  split at h
  · exact absurd h (by simp)
  next r2 hsave =>
  injection h with h1
  obtain ⟨hpre, hval⟩ := rfpSave_ok hsave
  have hps : rfpPreSave now true { rOld with status := RfpStatus.closed } =
      { rOld with status := RfpStatus.closed } := by
    simp [rfpPreSave]
  refine ⟨not_ne_iff.mp hrole, rOld, r2, hfind, not_ne_iff.mp hown, not_ne_iff.mp hguard,
    h1.symm, ?_, ?_, ?_, ?_, ?_, ?_, hval⟩ <;>
    simp [hpre, hps]

theorem deleteRFP_ok {u : User} {i : RfpId} {db db' : DB}
    (h : deleteRFP u i db = Except.ok db') :
    u.role = Role.buyer ∧
    ∃ rOld : RFP, findRFP db i = some rOld ∧ rOld.created_by = u.id ∧
      rOld.status = RfpStatus.draft ∧
      db' = { db with rfps := db.rfps.filter (fun x => x.id ≠ i) } := by
  simp only [deleteRFP] at h
  split at h
  · exact absurd h (by simp)
  next hrole =>
  split at h
  · exact absurd h (by simp)
  next rOld hfind =>
  split at h
  · exact absurd h (by simp)
  next hown =>
  split at h
  · exact absurd h (by simp)
  next hguard =>
  injection h with h1
  exact ⟨not_ne_iff.mp hrole, rOld, hfind, not_ne_iff.mp hown, not_ne_iff.mp hguard,
    h1.symm⟩

theorem createResponse_ok {now : Time} {u : User} {nid : RespId}
    {p : ResponseCreatePayload} {db db' : DB}
    (h : createResponse now u nid p db = Except.ok db') :
    u.role = Role.supplier ∧ findResponse db nid = none ∧
    ∃ rfp : RFP, findRFP db p.rfp_id = some rfp ∧ rfp.status = RfpStatus.published ∧
      ¬(rfp.deadline < now) ∧
      existingResponse db p.rfp_id u.id = none ∧
    ∃ r1 : Response,
      r1.id = nid ∧ r1.rfp_id = p.rfp_id ∧ r1.submitted_by = u.id ∧
      r1.proposal = p.proposal ∧ r1.status = p.status.getD RespStatus.draft ∧
      responseValid r1 = true ∧
      db' = (if r1.status = RespStatus.submitted then
               incResponseCount { db with responses := db.responses ++ [r1] } p.rfp_id
             else { db with responses := db.responses ++ [r1] }) := by
  simp only [createResponse] at h
  split at h
  · exact absurd h (by simp)
  next hrole =>
  split at h
  · exact absurd h (by simp)
  next rfp hfind =>
  split at h
  · exact absurd h (by simp)
  next hpub =>
  split at h
  · exact absurd h (by simp)
  next hdl =>
  split at h
  · exact absurd h (by simp)
  next hdupPair =>
  split at h
  · exact absurd h (by simp)
  next r1 hsave =>
  split at h
  · exact absurd h (by simp)
  next hdupId =>
  obtain ⟨hpre, hval⟩ := responseSave_ok hsave
  have hfields := responsePreSave_fields now true
    { id := nid, rfp_id := p.rfp_id, submitted_by := u.id, proposal := p.proposal,
      status := p.status.getD RespStatus.draft, submitted_at := none,
      reviewed_at := none, reviewer_notes := none, document_ids := [] }
  rw [← hpre] at hfields
  refine ⟨not_ne_iff.mp hrole, Option.not_isSome_iff_eq_none.mp (by simpa using hdupId),
    rfp, hfind, not_ne_iff.mp hpub, hdl,
    Option.not_isSome_iff_eq_none.mp (by simpa using hdupPair),
    r1, hfields.1, hfields.2.1, hfields.2.2.1, hfields.2.2.2.2.1,
    hfields.2.2.2.1, hval, ?_⟩
  split at h
  · next hsub =>
    injection h with h1
    rw [if_pos hsub]
    exact h1.symm
  · next hsub =>
    injection h with h1
    rw [if_neg hsub]
    exact h1.symm

theorem updateResponse_ok {now : Time} {u : User} {i : RespId} {p : ResponsePayload}
    {db db' : DB} (h : updateResponse now u i p db = Except.ok db') :
    u.role = Role.supplier ∧
    ∃ rOld : Response, findResponse db i = some rOld ∧ rOld.submitted_by = u.id ∧
      ¬(rOld.status = RespStatus.approved ∨ rOld.status = RespStatus.rejected) ∧
    ∃ rfp : RFP, findRFP db rOld.rfp_id = some rfp ∧ ¬(rfp.deadline < now) ∧
    ∃ r2 : Response,
      r2.id = rOld.id ∧ r2.rfp_id = rOld.rfp_id ∧ r2.submitted_by = rOld.submitted_by ∧
      r2.proposal = p.proposal ∧ r2.status = p.status.getD rOld.status ∧
      responseValid r2 = true ∧
      db' = (if rOld.status = RespStatus.draft ∧ r2.status = RespStatus.submitted then
               incResponseCount (putResponse db r2) rOld.rfp_id
             else putResponse db r2) := by
  simp only [updateResponse] at h
  split at h
  · exact absurd h (by simp)
  next hrole =>
  split at h
  · exact absurd h (by simp)
  next rOld hfind =>
  split at h
  · exact absurd h (by simp)
  next hown =>
  split at h
  · exact absurd h (by simp)
  next hguard =>
  split at h
  · exact absurd h (by simp)
  next rfp hrfp =>
  split at h
  · exact absurd h (by simp)
  next hdl =>
  split at h
  · exact absurd h (by simp)
  next r2 hsave =>
  obtain ⟨hpre, hval⟩ := responseSave_ok hsave
  have hfields := responsePreSave_fields now
    (decide ((assignResponse rOld p).status ≠ rOld.status)) (assignResponse rOld p)
  rw [← hpre] at hfields
  have hassign : (assignResponse rOld p).id = rOld.id ∧
      (assignResponse rOld p).rfp_id = rOld.rfp_id ∧
      (assignResponse rOld p).submitted_by = rOld.submitted_by ∧
      (assignResponse rOld p).proposal = p.proposal ∧
      (assignResponse rOld p).status = p.status.getD rOld.status := by
    cases hps : p.status <;> simp [assignResponse, hps]
  refine ⟨not_ne_iff.mp hrole, rOld, hfind, not_ne_iff.mp hown, hguard,
    rfp, hrfp, hdl, r2,
    hfields.1.trans hassign.1, hfields.2.1.trans hassign.2.1,
    hfields.2.2.1.trans hassign.2.2.1,
    hfields.2.2.2.2.1.trans hassign.2.2.2.1,
    hfields.2.2.2.1.trans hassign.2.2.2.2, hval, ?_⟩
  split at h
  · next hsub =>
    injection h with h1
    rw [if_pos hsub]
    exact h1.symm
  · next hsub =>
    injection h with h1
    rw [if_neg hsub]
    exact h1.symm

theorem deleteResponse_ok {u : User} {i : RespId} {db db' : DB}
    (h : deleteResponse u i db = Except.ok db') :
    u.role = Role.supplier ∧
    ∃ rOld : Response, findResponse db i = some rOld ∧ rOld.submitted_by = u.id ∧
      rOld.status = RespStatus.draft ∧
      db' = { db with responses := db.responses.filter (fun x => x.id ≠ i) } := by
  simp only [deleteResponse] at h
  split at h
  · exact absurd h (by simp)
  next hrole =>
  split at h
  · exact absurd h (by simp)
  next rOld hfind =>
  split at h
  · exact absurd h (by simp)
  next hown =>
  split at h
  · exact absurd h (by simp)
  next hguard =>
  injection h with h1
  exact ⟨not_ne_iff.mp hrole, rOld, hfind, not_ne_iff.mp hown, not_ne_iff.mp hguard,
    h1.symm⟩

theorem submitResponse_ok {now : Time} {u : User} {i : RespId} {db db' : DB}
    (h : submitResponse now u i db = Except.ok db') :
    u.role = Role.supplier ∧
    ∃ rOld : Response, findResponse db i = some rOld ∧ rOld.submitted_by = u.id ∧
      rOld.status = RespStatus.draft ∧
    ∃ rfp : RFP, findRFP db rOld.rfp_id = some rfp ∧ ¬(rfp.deadline < now) ∧
    ∃ r2 : Response,
      r2.id = rOld.id ∧ r2.rfp_id = rOld.rfp_id ∧ r2.submitted_by = rOld.submitted_by ∧
      r2.status = RespStatus.submitted ∧ r2.submitted_at = some now ∧
      responseValid r2 = true ∧
      db' = incResponseCount (putResponse db r2) rOld.rfp_id := by
  simp only [submitResponse] at h
  split at h
  · exact absurd h (by simp)
  next hrole =>
  split at h
  · exact absurd h (by simp)
  next rOld hfind =>
  split at h
  · exact absurd h (by simp)
  next hown =>
  split at h
  · exact absurd h (by simp)
  next hguard =>
  split at h
  · exact absurd h (by simp)
  next rfp hrfp =>
  split at h
  · exact absurd h (by simp)
  next hdl =>
  split at h
  · exact absurd h (by simp)
  next r2 hsave =>
  injection h with h1
  obtain ⟨hpre, hval⟩ := responseSave_ok hsave
  have hfields := responsePreSave_fields now true
    { rOld with status := RespStatus.submitted, submitted_at := some now }
  rw [← hpre] at hfields
  have hsubat : r2.submitted_at = some now := by
    rw [hpre]
    simp [responsePreSave]
  exact ⟨not_ne_iff.mp hrole, rOld, hfind, not_ne_iff.mp hown, not_ne_iff.mp hguard,
    rfp, hrfp, hdl, r2, hfields.1, hfields.2.1, hfields.2.2.1,
    hfields.2.2.2.1, hsubat, hval, h1.symm⟩

theorem reviewResponse_ok {now : Time} {u : User} {i : RespId} {outcome : ReviewOutcome}
    {notes : Option String} {db db' : DB}
    (h : reviewResponse now u i outcome notes db = Except.ok db') :
    u.role = Role.buyer ∧
    ∃ rOld : Response, findResponse db i = some rOld ∧
    ∃ rfp : RFP, findRFP db rOld.rfp_id = some rfp ∧ rfp.created_by = u.id ∧
      (rOld.status = RespStatus.submitted ∨ rOld.status = RespStatus.under_review) ∧
    ∃ r2 : Response,
      r2.id = rOld.id ∧ r2.rfp_id = rOld.rfp_id ∧ r2.submitted_by = rOld.submitted_by ∧
      r2.status = outcome.toStatus ∧ r2.reviewer_notes = notes ∧
      r2.reviewed_at = some now ∧ responseValid r2 = true ∧
      db' = putResponse db r2 := by
  simp only [reviewResponse] at h
  split at h
  · exact absurd h (by simp)
  next hrole =>
  split at h
  · exact absurd h (by simp)
  next rOld hfind =>
  split at h
  · exact absurd h (by simp)
  next rfp hrfp =>
  split at h
  · exact absurd h (by simp)
  next hown =>
  split at h
  · exact absurd h (by simp)
  next hguard =>
  split at h
  · exact absurd h (by simp)
  next r2 hsave =>
  injection h with h1
  obtain ⟨hpre, hval⟩ := responseSave_ok hsave
  have hfields := responsePreSave_fields now
    (decide (outcome.toStatus ≠ rOld.status))
    { rOld with
      status := outcome.toStatus,
      reviewer_notes := notes,
      reviewed_at := some now }
  rw [← hpre] at hfields
  have hrev : r2.reviewed_at = some now := by
    rw [hpre]
    simp only [responsePreSave]
    split <;> simp_all
  exact ⟨not_ne_iff.mp hrole, rOld, hfind, rfp, hrfp, not_ne_iff.mp hown,
    not_not.mp hguard, r2, hfields.1, hfields.2.1, hfields.2.2.1,
    hfields.2.2.2.1, hfields.2.2.2.2.2.1, hrev, hval, h1.symm⟩

theorem checkRFPOwner_ok {u : User} {o : Option RfpId} {db : DB} {x : Unit}
    (h : checkRFPOwner u o db = Except.ok x) :
    ∀ ri, o = some ri → ∃ rfp : RFP, findRFP db ri = some rfp ∧ rfp.created_by = u.id := by
  intro ri hri
  subst hri
  simp only [checkRFPOwner] at h
  split at h
  · exact absurd h (by simp)
  next rfp hfind =>
  split at h
  · exact absurd h (by simp)
  next hcb =>
  exact ⟨rfp, hfind, not_ne_iff.mp hcb⟩

theorem checkResponseOwner_ok {u : User} {o : Option RespId} {db : DB} {x : Unit}
    (h : checkResponseOwner u o db = Except.ok x) :
    ∀ pi, o = some pi →
      ∃ resp : Response, findResponse db pi = some resp ∧ resp.submitted_by = u.id := by
  intro pi hpi
  subst hpi
  simp only [checkResponseOwner] at h
  split at h
  · exact absurd h (by simp)
  next resp hfind =>
  split at h
  · exact absurd h (by simp)
  next hsb =>
  exact ⟨resp, hfind, not_ne_iff.mp hsb⟩

theorem uploadDocument_ok {u : User} {nid : DocId} {p : UploadPayload} {db db' : DB}
    (h : uploadDocument u nid p db = Except.ok db') :
    ¬(p.document_type = DocType.rfp_document ∧ p.rfp_id = none) ∧
    ¬(p.document_type = DocType.response_document ∧ p.response_id = none) ∧
    (∀ ri, p.rfp_id = some ri →
      ∃ rfp : RFP, findRFP db ri = some rfp ∧ rfp.created_by = u.id) ∧
    (∀ pi, p.response_id = some pi →
      ∃ resp : Response, findResponse db pi = some resp ∧ resp.submitted_by = u.id) ∧
    findDocument db nid = none ∧
    db' =
      (let d : Document := { id := nid, document_type := p.document_type,
                             rfp_id := p.rfp_id, response_id := p.response_id,
                             uploaded_by := u.id }
       let db1 : DB := { db with documents := db.documents ++ [d] }
       let db2 := match p.rfp_id with
         | some ri => pushRFPDoc db1 ri d.id
         | none => db1
       match p.response_id with
       | some pi => pushResponseDoc db2 pi d.id
       | none => db2) := by
  simp only [uploadDocument] at h
  split at h
  · exact absurd h (by simp)
  next hty1 =>
  split at h
  · exact absurd h (by simp)
  next hty2 =>
  split at h
  · exact absurd h (by simp)
  next _u1 hrfpCheck =>
  split at h
  · exact absurd h (by simp)
  next _u2 hrespCheck =>
  split at h
  · exact absurd h (by simp)
  next hdup =>
  injection h with h1
  exact ⟨hty1, hty2, checkRFPOwner_ok hrfpCheck, checkResponseOwner_ok hrespCheck,
    Option.not_isSome_iff_eq_none.mp (by simpa using hdup), h1.symm⟩

/-! Tracking an individual record through the store mutations. -/

theorem applyOp_error {o : Op} {db : DB} {e : ApiError}
    (h : runOp o db = Except.error e) : applyOp o db = db := by
  unfold applyOp
  rw [h]

theorem applyOp_ok {o : Op} {db db' : DB} (h : runOp o db = Except.ok db') :
    applyOp o db = db' := by
  unfold applyOp
  rw [h]

theorem put_found_eq {db : DB} {j i : RfpId} {rOld r2 r r' : RFP}
    (hfind : findRFP db j = some rOld) (hid : r2.id = rOld.id)
    (h : findRFP db i = some r) (h' : findRFP (putRFP db r2) i = some r') :
    (r' = r ∧ r.id ≠ r2.id) ∨ (r' = r2 ∧ r = rOld) := by
  rw [findRFP_put, h] at h'
  injection h' with h''
  dsimp only at h''
  by_cases hc : r.id = r2.id
  · right
    refine ⟨by rw [if_pos hc] at h''; exact h''.symm, ?_⟩
    have hri : r.id = i := findRFP_id h
    have hoj : rOld.id = j := findRFP_id hfind
    have hij : i = j := by rw [← hri, hc, hid, hoj]
    subst hij
    rw [h] at hfind
    injection hfind
  · left
    rw [if_neg hc] at h''
    exact ⟨h''.symm, hc⟩

theorem putResp_found_eq {db : DB} {j i : RespId} {rOld r2 r r' : Response}
    (hfind : findResponse db j = some rOld) (hid : r2.id = rOld.id)
    (h : findResponse db i = some r) (h' : findResponse (putResponse db r2) i = some r') :
    (r' = r ∧ r.id ≠ r2.id) ∨ (r' = r2 ∧ r = rOld) := by
  rw [findResponse_put, h] at h'
  injection h' with h''
  dsimp only at h''
  by_cases hc : r.id = r2.id
  · right
    refine ⟨by rw [if_pos hc] at h''; exact h''.symm, ?_⟩
    have hri : r.id = i := findResponse_id h
    have hoj : rOld.id = j := findResponse_id hfind
    have hij : i = j := by rw [← hri, hc, hid, hoj]
    subst hij
    rw [h] at hfind
    injection hfind
  · left
    rw [if_neg hc] at h''
    exact ⟨h''.symm, hc⟩

theorem inc_found {db : DB} {j i : RfpId} {r r' : RFP}
    (h : findRFP db i = some r) (h' : findRFP (incResponseCount db j) i = some r') :
    (i = j ∧ r' = { r with response_count := r.response_count + 1 }) ∨
    (i ≠ j ∧ r' = r) := by
  rw [findRFP_inc, h] at h'
  injection h' with h''
  dsimp only at h''
  have hri : r.id = i := findRFP_id h
  by_cases hc : i = j
  · left
    refine ⟨hc, ?_⟩
    rw [← h'', if_pos (hri.trans hc)]
  · right
    refine ⟨hc, ?_⟩
    rw [← h'', if_neg (fun hh => hc (hri ▸ hh))]

theorem erase_found {db : DB} {j i : RfpId} {r' : RFP}
    (h' : findRFP { db with rfps := db.rfps.filter (fun x => x.id ≠ j) } i = some r') :
    findRFP db i = some r' := by
  rw [findRFP_erase] at h'
  split at h'
  · cases h'
  · exact h'

theorem eraseResp_found {db : DB} {j i : RespId} {r' : Response}
    (h' : findResponse
      { db with responses := db.responses.filter (fun x => x.id ≠ j) } i = some r') :
    findResponse db i = some r' := by
  rw [findResponse_erase] at h'
  split at h'
  · cases h'
  · exact h'

theorem pushDoc_found {db : DB} {j : RfpId} {d : DocId} {i : RfpId} {r r' : RFP}
    (h : findRFP db i = some r) (h' : findRFP (pushRFPDoc db j d) i = some r') :
    r'.response_count = r.response_count ∧ r'.status = r.status ∧
    r'.published_at = r.published_at := by
  rw [findRFP_pushDoc, h] at h'
  injection h' with h''
  dsimp only at h''
  rw [← h'']
  split <;> simp

theorem append_found {db : DB} {rNew : RFP} {i : RfpId} {r r' : RFP}
    (h : findRFP db i = some r)
    (h' : findRFP { db with rfps := db.rfps ++ [rNew] } i = some r') : r' = r := by
  rw [findRFP_append, h] at h'
  injection h' with h''
  exact h''.symm

theorem appendResp_found {db : DB} {rNew : Response} {i : RespId} {r r' : Response}
    (h : findResponse db i = some r)
    (h' : findResponse { db with responses := db.responses ++ [rNew] } i = some r') :
    r' = r := by
  rw [findResponse_append, h] at h'
  injection h' with h''
  exact h''.symm

/-- Decides whether an operation performs, against the RFP with id i,
one of the three counter-incrementing events of the source (creating a
Response directly as submitted, updating a Response from draft to
submitted, or the explicit submit action), and succeeds. -/
def submitEvent (o : Op) (db : DB) (i : RfpId) : Bool :=
  (match o with
   | Op.opCreateResponse _ _ _ p =>
       decide (p.rfp_id = i) && decide (p.status = some RespStatus.submitted)
   | Op.opUpdateResponse _ _ rid p =>
       (match findResponse db rid with
        | some r => decide (r.rfp_id = i) && decide (r.status = RespStatus.draft) &&
            decide (p.status = some RespStatus.submitted)
        | none => false)
   | Op.opSubmitResponse _ _ rid =>
       (match findResponse db rid with
        | some r => decide (r.rfp_id = i)
        | none => false)
   | _ => false) && (runOp o db).toOption.isSome

theorem submitEvent_error {o : Op} {db : DB} {e : ApiError} {i : RfpId}
    (h : runOp o db = Except.error e) : submitEvent o db i = false := by
  unfold submitEvent
  rw [h]
  simp [Except.toOption]

/-- C1 (amended): across every exposed operation, the response_count of
an RFP present both before and after the operation changes by exactly
the number of counter-incrementing events the operation performs
against it: plus one for a successful create-with-submitted-payload,
update-from-draft-to-submitted, or explicit submit targeting it, and
zero in every other case — in particular an update moving a Response
from under_review back to submitted, deleting a draft Response, and
every RFP operation leave it unchanged, so it never decreases. -/
theorem c1_count_exact (o : Op) (db : DB) (i : RfpId) (r r' : RFP)
    (h : findRFP db i = some r) (h' : findRFP (applyOp o db) i = some r') :
    r'.response_count = r.response_count +
      (if submitEvent o db i = true then 1 else 0) := by
  cases hrun : runOp o db with
  | error e =>
    rw [applyOp_error hrun, h] at h'
    injection h' with h''
    rw [submitEvent_error hrun]
    simp [← h'']
  | ok db1 =>
    rw [applyOp_ok hrun] at h'
    cases o with
    | opCreateRFP now u nid p =>
      have hse : submitEvent (Op.opCreateRFP now u nid p) db i = false := by
        simp [submitEvent]
      obtain ⟨-, -, r1, hdb, -⟩ := createRFP_ok hrun
      subst hdb
      rw [append_found h h', hse]
      simp
    | opUpdateRFP now u j p =>
      have hse : submitEvent (Op.opUpdateRFP now u j p) db i = false := by
        simp [submitEvent]
      obtain ⟨-, -, rOld, r2, hfind, -, -, hdb, hid2, -, hcount, -, -, -⟩ :=
        updateRFP_ok hrun
      subst hdb
      rw [hse]
      rcases put_found_eq hfind hid2 h h' with ⟨hr', -⟩ | ⟨hr', hrold⟩
      · simp [hr']
      · simp [hr', hcount, hrold]
    | opPublishRFP now u j =>
      have hse : submitEvent (Op.opPublishRFP now u j) db i = false := by
        simp [submitEvent]
      obtain ⟨-, rOld, r2, hfind, -, -, hdb, hid2, -, hcount, -, -, -, -⟩ :=
        publishRFP_ok hrun
      subst hdb
      rw [hse]
      rcases put_found_eq hfind hid2 h h' with ⟨hr', -⟩ | ⟨hr', hrold⟩
      · simp [hr']
      · simp [hr', hcount, hrold]
    | opCloseRFP now u j =>
      have hse : submitEvent (Op.opCloseRFP now u j) db i = false := by
        simp [submitEvent]
      obtain ⟨-, rOld, r2, hfind, -, -, hdb, hid2, -, hcount, -, -, -, -⟩ :=
        closeRFP_ok hrun
      subst hdb
      rw [hse]
      rcases put_found_eq hfind hid2 h h' with ⟨hr', -⟩ | ⟨hr', hrold⟩
      · simp [hr']
      · simp [hr', hcount, hrold]
    | opDeleteRFP u j =>
      have hse : submitEvent (Op.opDeleteRFP u j) db i = false := by
        simp [submitEvent]
      obtain ⟨-, rOld, -, -, -, hdb⟩ := deleteRFP_ok hrun
      subst hdb
      have h2 := erase_found h'
      rw [h] at h2
      injection h2 with h''
      rw [hse]
      simp [h'']
    | opCreateResponse now u nid p =>
      obtain ⟨-, -, rfp, hfindrfp, -, -, -, r1, -, -, -, -, hstat, -, hdb⟩ :=
        createResponse_ok hrun
      by_cases hsub : r1.status = RespStatus.submitted
      · rw [if_pos hsub] at hdb
        subst hdb
        have hps : p.status = some RespStatus.submitted := by
          rcases h0 : p.status with _ | s
          · rw [h0] at hstat
            simp at hstat
            rw [hstat] at hsub
            cases hsub
          · rw [h0] at hstat
            simp at hstat
            rw [hstat] at hsub
            exact congrArg some hsub
        have h2 : findRFP { db with responses := db.responses ++ [r1] } i = some r := h
        rcases inc_found h2 h' with ⟨hij, hr'⟩ | ⟨hij, hr'⟩
        · have hse : submitEvent (Op.opCreateResponse now u nid p) db i = true := by
            unfold submitEvent
            rw [hrun]
            simp [hij, hps, Except.toOption]
          rw [hse, hr']
          simp
        · have hse : submitEvent (Op.opCreateResponse now u nid p) db i = false := by
            simp only [submitEvent]
            simp [show p.rfp_id ≠ i from fun hh => hij hh.symm]
          rw [hse, hr']
          simp
      · rw [if_neg hsub] at hdb
        subst hdb
        have h2 : findRFP db i = some r' := h'
        rw [h] at h2
        injection h2 with h''
        have hps : p.status ≠ some RespStatus.submitted := by
          intro h0
          rw [h0] at hstat
          simp at hstat
          exact hsub hstat
        have hse : submitEvent (Op.opCreateResponse now u nid p) db i = false := by
          simp only [submitEvent]
          simp [hps]
        rw [hse]
        simp [h'']
    | opUpdateResponse now u rid p =>
      obtain ⟨-, rOld, hfindR, -, -, rfp, -, -, r2, -, -, -, -, hstat2, -, hdb⟩ :=
        updateResponse_ok hrun
      by_cases hfire : rOld.status = RespStatus.draft ∧ r2.status = RespStatus.submitted
      · rw [if_pos hfire] at hdb
        subst hdb
        have hps : p.status = some RespStatus.submitted := by
          rcases h0 : p.status with _ | s
          · rw [h0] at hstat2
            simp at hstat2
            rw [hstat2, hfire.1] at hfire
            cases hfire.2
          · rw [h0] at hstat2
            simp at hstat2
            rw [hstat2] at hfire
            exact congrArg some hfire.2
        have h2 : findRFP (putResponse db r2) i = some r := h
        rcases inc_found h2 h' with ⟨hij, hr'⟩ | ⟨hij, hr'⟩
        · have hse : submitEvent (Op.opUpdateResponse now u rid p) db i = true := by
            simp only [submitEvent, hrun, hfindR]
            simp [hij, hfire.1, hps, Except.toOption]
          rw [hse, hr']
          simp
        · have hse : submitEvent (Op.opUpdateResponse now u rid p) db i = false := by
            simp only [submitEvent, hfindR]
            simp [show rOld.rfp_id ≠ i from fun hh => hij hh.symm]
          rw [hse, hr']
          simp
      · rw [if_neg hfire] at hdb
        subst hdb
        have h2 : findRFP db i = some r' := h'
        rw [h] at h2
        injection h2 with h''
        have harm : ¬(rOld.status = RespStatus.draft ∧
            p.status = some RespStatus.submitted) := by
          rintro ⟨hd, hp⟩
          refine hfire ⟨hd, ?_⟩
          rw [hstat2, hp]
          rfl
        have hse : submitEvent (Op.opUpdateResponse now u rid p) db i = false := by
          simp only [submitEvent, hfindR]
          by_cases hd : rOld.status = RespStatus.draft <;>
            by_cases hp : p.status = some RespStatus.submitted <;>
            simp [hd, hp]
          exact absurd ⟨hd, hp⟩ harm
        rw [hse]
        simp [h'']
    | opDeleteResponse u rid =>
      have hse : submitEvent (Op.opDeleteResponse u rid) db i = false := by
        simp [submitEvent]
      obtain ⟨-, rOld, -, -, -, hdb⟩ := deleteResponse_ok hrun
      subst hdb
      have h2 : findRFP db i = some r' := h'
      rw [h] at h2
      injection h2 with h''
      rw [hse]
      simp [h'']
    | opSubmitResponse now u rid =>
      obtain ⟨-, rOld, hfindR, -, -, rfp, -, -, r2, -, -, -, -, -, -, hdb⟩ :=
        submitResponse_ok hrun
      subst hdb
      have h2 : findRFP (putResponse db r2) i = some r := h
      rcases inc_found h2 h' with ⟨hij, hr'⟩ | ⟨hij, hr'⟩
      · have hse : submitEvent (Op.opSubmitResponse now u rid) db i = true := by
          simp only [submitEvent, hrun, hfindR]
          simp [hij, Except.toOption]
        rw [hse, hr']
        simp
      · have hse : submitEvent (Op.opSubmitResponse now u rid) db i = false := by
          simp only [submitEvent, hfindR]
          simp [show rOld.rfp_id ≠ i from fun hh => hij hh.symm]
        rw [hse, hr']
        simp
    | opReviewResponse now u rid outcome notes =>
      have hse : submitEvent (Op.opReviewResponse now u rid outcome notes) db i =
          false := by
        simp [submitEvent]
      obtain ⟨-, rOld, -, rfp, -, -, -, r2, -, -, -, -, -, -, -, hdb⟩ :=
        reviewResponse_ok hrun
      subst hdb
      have h2 : findRFP db i = some r' := h'
      rw [h] at h2
      injection h2 with h''
      rw [hse]
      simp [h'']
    | opUploadDocument u nid p =>
      have hse : submitEvent (Op.opUploadDocument u nid p) db i = false := by
        simp [submitEvent]
      obtain ⟨-, -, -, -, -, hdb⟩ := uploadDocument_ok hrun
      rw [hse]
      rcases hpr : p.rfp_id with _ | ri <;> rcases hpp : p.response_id with _ | pi <;>
        simp only [hpr, hpp] at hdb <;> subst hdb
      · have h2 : findRFP db i = some r' := h'
        rw [h] at h2
        injection h2 with h''
        simp [h'']
      · have h2 : findRFP db i = some r' := h'
        rw [h] at h2
        injection h2 with h''
        simp [h'']
      · have hb : findRFP { db with documents := db.documents ++
            [{ id := nid, document_type := p.document_type, rfp_id := p.rfp_id,
               response_id := p.response_id, uploaded_by := u.id }] } i = some r := h
        obtain ⟨hcount, -, -⟩ := pushDoc_found hb h'
        simp [hcount]
      · have hb : findRFP { db with documents := db.documents ++
            [{ id := nid, document_type := p.document_type, rfp_id := p.rfp_id,
               response_id := p.response_id, uploaded_by := u.id }] } i = some r := h
        have h3 : findRFP (pushRFPDoc { db with documents := db.documents ++
            [{ id := nid, document_type := p.document_type, rfp_id := p.rfp_id,
               response_id := p.response_id, uploaded_by := u.id }] } ri nid) i =
            some r' := h'
        obtain ⟨hcount, -, -⟩ := pushDoc_found hb h3
        simp [hcount]

/-! Membership-based tracking: where each stored RFP record of the
resulting store comes from. -/

theorem mem_put {l : List RFP} {r2 x' : RFP}
    (h : x' ∈ l.map (fun x => if x.id = r2.id then r2 else x)) : x' ∈ l ∨ x' = r2 := by
  rcases List.mem_map.mp h with ⟨x, hx, hfx⟩
  by_cases hc : x.id = r2.id
  · right
    rw [← hfx, if_pos hc]
  · left
    rw [← hfx, if_neg hc]
    exact hx

theorem mem_inc {l : List RFP} {j : RfpId} {x' : RFP}
    (h : x' ∈ l.map (fun x =>
      if x.id = j then { x with response_count := x.response_count + 1 } else x)) :
    ∃ x ∈ l, x'.status = x.status ∧ x'.published_at = x.published_at := by
  rcases List.mem_map.mp h with ⟨x, hx, hfx⟩
  refine ⟨x, hx, ?_, ?_⟩ <;> rw [← hfx] <;> split <;> simp

theorem mem_push {l : List RFP} {j : RfpId} {d : DocId} {x' : RFP}
    (h : x' ∈ l.map (fun x =>
      if x.id = j then { x with document_ids := x.document_ids ++ [d] } else x)) :
    ∃ x ∈ l, x'.status = x.status ∧ x'.published_at = x.published_at := by
  rcases List.mem_map.mp h with ⟨x, hx, hfx⟩
  refine ⟨x, hx, ?_, ?_⟩ <;> rw [← hfx] <;> split <;> simp

/-- C3 (amended): across every exposed operation, the reachable-state
invariant that published_at is present whenever status is published is
preserved — the schema validator enforces exactly this direction on
every save, while closing a published RFP, or moving it back to draft
through an update, retains published_at, so the biconditional of the
original claim fails. -/
theorem c3_publishedAt_invariant (o : Op) (db : DB)
    (hInv : ∀ r ∈ db.rfps, r.status = RfpStatus.published → r.published_at ≠ none) :
    ∀ r' ∈ (applyOp o db).rfps,
      r'.status = RfpStatus.published → r'.published_at ≠ none := by
  intro r' h' hs
  cases hrun : runOp o db with
  | error e =>
    rw [applyOp_error hrun] at h'
    exact hInv r' h' hs
  | ok db1 =>
    rw [applyOp_ok hrun] at h'
    cases o with
    | opCreateRFP now u nid p =>
      obtain ⟨-, -, r1, hdb, -, -, -, -, -, hval⟩ := createRFP_ok hrun
      subst hdb
      rcases List.mem_append.mp h' with hm | hm
      · exact hInv r' hm hs
      · have he := List.mem_singleton.mp hm
        subst he
        exact rfpValid_published hval hs
    | opUpdateRFP now u j p =>
      obtain ⟨-, -, rOld, r2, -, -, -, hdb, -, -, -, -, -, hval⟩ := updateRFP_ok hrun
      subst hdb
      rcases mem_put h' with hm | hm
      · exact hInv r' hm hs
      · subst hm
        exact rfpValid_published hval hs
    | opPublishRFP now u j =>
      obtain ⟨-, rOld, r2, -, -, -, hdb, -, -, -, -, -, -, hval⟩ := publishRFP_ok hrun
      subst hdb
      rcases mem_put h' with hm | hm
      · exact hInv r' hm hs
      · subst hm
        exact rfpValid_published hval hs
    | opCloseRFP now u j =>
      obtain ⟨-, rOld, r2, -, -, -, hdb, -, -, -, -, -, -, hval⟩ := closeRFP_ok hrun
      subst hdb
      rcases mem_put h' with hm | hm
      · exact hInv r' hm hs
      · subst hm
        exact rfpValid_published hval hs
    | opDeleteRFP u j =>
      obtain ⟨-, rOld, -, -, -, hdb⟩ := deleteRFP_ok hrun
      subst hdb
      exact hInv r' (List.mem_filter.mp h').1 hs
    | opCreateResponse now u nid p =>
      obtain ⟨-, -, rfp, -, -, -, -, r1, -, -, -, -, -, -, hdb⟩ := createResponse_ok hrun
      by_cases hsub : r1.status = RespStatus.submitted
      · rw [if_pos hsub] at hdb
        subst hdb
        obtain ⟨x, hx, hxs, hxp⟩ := mem_inc h'
        rw [hxp]
        exact hInv x hx (hxs ▸ hs)
      · rw [if_neg hsub] at hdb
        subst hdb
        exact hInv r' h' hs
    | opUpdateResponse now u rid p =>
      obtain ⟨-, rOld, -, -, -, rfp, -, -, r2, -, -, -, -, -, -, hdb⟩ :=
        updateResponse_ok hrun
      by_cases hfire : rOld.status = RespStatus.draft ∧ r2.status = RespStatus.submitted
      · rw [if_pos hfire] at hdb
        subst hdb
        obtain ⟨x, hx, hxs, hxp⟩ := mem_inc h'
        rw [hxp]
        exact hInv x hx (hxs ▸ hs)
      · rw [if_neg hfire] at hdb
        subst hdb
        exact hInv r' h' hs
    | opDeleteResponse u rid =>
      obtain ⟨-, rOld, -, -, -, hdb⟩ := deleteResponse_ok hrun
      subst hdb
      exact hInv r' h' hs
    | opSubmitResponse now u rid =>
      obtain ⟨-, rOld, -, -, -, rfp, -, -, r2, -, -, -, -, -, -, hdb⟩ :=
        submitResponse_ok hrun
      subst hdb
      obtain ⟨x, hx, hxs, hxp⟩ := mem_inc h'
      rw [hxp]
      exact hInv x hx (hxs ▸ hs)
    | opReviewResponse now u rid outcome notes =>
      obtain ⟨-, rOld, -, rfp, -, -, -, r2, -, -, -, -, -, -, -, hdb⟩ :=
        reviewResponse_ok hrun
      subst hdb
      exact hInv r' h' hs
    | opUploadDocument u nid p =>
      obtain ⟨-, -, -, -, -, hdb⟩ := uploadDocument_ok hrun
      rcases hpr : p.rfp_id with _ | ri <;> rcases hpp : p.response_id with _ | pi <;>
        simp only [hpr, hpp] at hdb <;> subst hdb
      · exact hInv r' h' hs
      · exact hInv r' h' hs
      · obtain ⟨x, hx, hxs, hxp⟩ := mem_push h'
        rw [hxp]
        exact hInv x hx (hxs ▸ hs)
      · obtain ⟨x, hx, hxs, hxp⟩ := mem_push h'
        rw [hxp]
        exact hInv x hx (hxs ▸ hs)

/-- Whether an operation carries a validated payload that directly sets
the RFP status to cancelled (the status side channel of create and
update). -/
def opSetsCancelled : Op → Bool
  | Op.opCreateRFP _ _ _ p => decide (p.status = some RfpStatus.cancelled)
  | Op.opUpdateRFP _ _ _ p => decide (p.status = some RfpStatus.cancelled)
  | _ => false

/-- C5 (amended): the dedicated lifecycle actions publish, close and
delete never move an RFP into cancelled, and neither does a create or
update whose payload does not set status to cancelled: any cancelled
RFP after such an operation was already cancelled before it.  The
original claim fails because create and update accept status cancelled
in their validated payload. -/
theorem c5_no_cancelled (o : Op) (db : DB) (hop : opSetsCancelled o = false) :
    ∀ r' ∈ (applyOp o db).rfps, r'.status = RfpStatus.cancelled →
      ∃ r ∈ db.rfps, r.status = RfpStatus.cancelled := by
  intro r' h' hs
  cases hrun : runOp o db with
  | error e =>
    rw [applyOp_error hrun] at h'
    exact ⟨r', h', hs⟩
  | ok db1 =>
    rw [applyOp_ok hrun] at h'
    cases o with
    | opCreateRFP now u nid p =>
      obtain ⟨-, -, r1, hdb, -, -, -, hstat, -, -⟩ := createRFP_ok hrun
      subst hdb
      rcases List.mem_append.mp h' with hm | hm
      · exact ⟨r', hm, hs⟩
      · have he := List.mem_singleton.mp hm
        subst he
        simp only [opSetsCancelled, decide_eq_false_iff_not] at hop
        rcases h0 : p.status with _ | s
        · rw [h0] at hstat
          simp at hstat
          rw [hstat] at hs
          cases hs
        · rw [h0] at hstat
          simp at hstat
          rw [hstat] at hs
          exact absurd (h0.trans (congrArg some hs)) hop
    | opUpdateRFP now u j p =>
      obtain ⟨-, -, rOld, r2, hfind, -, -, hdb, -, -, -, -, hstat, -⟩ := updateRFP_ok hrun
      subst hdb
      rcases mem_put h' with hm | hm
      · exact ⟨r', hm, hs⟩
      · subst hm
        simp only [opSetsCancelled, decide_eq_false_iff_not] at hop
        rcases h0 : p.status with _ | s
        · rw [h0] at hstat
          simp at hstat
          exact ⟨rOld, List.mem_of_find?_eq_some hfind, hstat ▸ hs⟩
        · rw [h0] at hstat
          simp at hstat
          rw [hstat] at hs
          exact absurd (h0.trans (congrArg some hs)) hop
    | opPublishRFP now u j =>
      obtain ⟨-, rOld, r2, -, -, -, hdb, -, -, -, -, hstat, -, -⟩ := publishRFP_ok hrun
      subst hdb
      rcases mem_put h' with hm | hm
      · exact ⟨r', hm, hs⟩
      · subst hm
        rw [hstat] at hs
        cases hs
    | opCloseRFP now u j =>
      obtain ⟨-, rOld, r2, -, -, -, hdb, -, -, -, -, hstat, -, -⟩ := closeRFP_ok hrun
      subst hdb
      rcases mem_put h' with hm | hm
      · exact ⟨r', hm, hs⟩
      · subst hm
        rw [hstat] at hs
        cases hs
    | opDeleteRFP u j =>
      obtain ⟨-, rOld, -, -, -, hdb⟩ := deleteRFP_ok hrun
      subst hdb
      exact ⟨r', (List.mem_filter.mp h').1, hs⟩
    | opCreateResponse now u nid p =>
      obtain ⟨-, -, rfp, -, -, -, -, r1, -, -, -, -, -, -, hdb⟩ := createResponse_ok hrun
      by_cases hsub : r1.status = RespStatus.submitted
      · rw [if_pos hsub] at hdb
        subst hdb
        obtain ⟨x, hx, hxs, -⟩ := mem_inc h'
        exact ⟨x, hx, hxs ▸ hs⟩
      · rw [if_neg hsub] at hdb
        subst hdb
        exact ⟨r', h', hs⟩
    | opUpdateResponse now u rid p =>
      obtain ⟨-, rOld, -, -, -, rfp, -, -, r2, -, -, -, -, -, -, hdb⟩ :=
        updateResponse_ok hrun
      by_cases hfire : rOld.status = RespStatus.draft ∧ r2.status = RespStatus.submitted
      · rw [if_pos hfire] at hdb
        subst hdb
        obtain ⟨x, hx, hxs, -⟩ := mem_inc h'
        exact ⟨x, hx, hxs ▸ hs⟩
      · rw [if_neg hfire] at hdb
        subst hdb
        exact ⟨r', h', hs⟩
    | opDeleteResponse u rid =>
      obtain ⟨-, rOld, -, -, -, hdb⟩ := deleteResponse_ok hrun
      subst hdb
      exact ⟨r', h', hs⟩
    | opSubmitResponse now u rid =>
      obtain ⟨-, rOld, -, -, -, rfp, -, -, r2, -, -, -, -, -, -, hdb⟩ :=
        submitResponse_ok hrun
      subst hdb
      obtain ⟨x, hx, hxs, -⟩ := mem_inc h'
      exact ⟨x, hx, hxs ▸ hs⟩
    | opReviewResponse now u rid outcome notes =>
      obtain ⟨-, rOld, -, rfp, -, -, -, r2, -, -, -, -, -, -, -, hdb⟩ :=
        reviewResponse_ok hrun
      subst hdb
      exact ⟨r', h', hs⟩
    | opUploadDocument u nid p =>
      obtain ⟨-, -, -, -, -, hdb⟩ := uploadDocument_ok hrun
      rcases hpr : p.rfp_id with _ | ri <;> rcases hpp : p.response_id with _ | pi <;>
        simp only [hpr, hpp] at hdb <;> subst hdb
      · exact ⟨r', h', hs⟩
      · exact ⟨r', h', hs⟩
      · obtain ⟨x, hx, hxs, -⟩ := mem_push h'
        exact ⟨x, hx, hxs ▸ hs⟩
      · obtain ⟨x, hx, hxs, -⟩ := mem_push h'
        exact ⟨x, hx, hxs ▸ hs⟩

/-! Uniqueness of the (rfp_id, submitted_by) pair across responses. -/

/-- No two Responses of the collection share the (rfp_id, submitted_by)
pair: the guarantee of the unique compound index of responseSchema,
maintained at the application level by the duplicate check of
createResponse. -/
def pairsUnique (l : List Response) : Prop :=
  l.Pairwise (fun a b => ¬(a.rfp_id = b.rfp_id ∧ a.submitted_by = b.submitted_by))

/-- Primary key uniqueness of a responses collection. -/
def idsNodupR (l : List Response) : Prop :=
  (l.map (fun x => x.id)).Nodup

def respKeysUnique (db : DB) : Prop := pairsUnique db.responses

def respIdsNodup (db : DB) : Prop := idsNodupR db.responses

theorem respWf_put {l : List Response} {j : RespId} {rOld r2 : Response}
    (hfind : l.find? (fun x => x.id == j) = some rOld) (hid : r2.id = rOld.id)
    (hrfp : r2.rfp_id = rOld.rfp_id) (hsb : r2.submitted_by = rOld.submitted_by)
    (hpw : pairsUnique l) (hnd : idsNodupR l) :
    pairsUnique (l.map (fun x => if x.id = r2.id then r2 else x)) ∧
    idsNodupR (l.map (fun x => if x.id = r2.id then r2 else x)) := by
  have huniq : ∀ x ∈ l, x.id = rOld.id → x = rOld := by
    intro x hx hxid
    exact List.inj_on_of_nodup_map hnd hx (List.mem_of_find?_eq_some hfind) hxid
  have hpoint : ∀ x ∈ l,
      (if x.id = r2.id then r2 else x).rfp_id = x.rfp_id ∧
      (if x.id = r2.id then r2 else x).submitted_by = x.submitted_by := by
    intro x hx
    by_cases hc : x.id = r2.id
    · have hx2 : x = rOld := huniq x hx (hc.trans hid)
      rw [if_pos hc, hx2, hrfp, hsb]
      exact ⟨rfl, rfl⟩
    · rw [if_neg hc]
      exact ⟨rfl, rfl⟩
  have hfid : ∀ x : Response, (if x.id = r2.id then r2 else x).id = x.id := by
    intro x
    by_cases hc : x.id = r2.id <;> simp [hc]
  constructor
  · refine List.pairwise_map.mpr (hpw.imp_of_mem ?_)
    intro a b ha hb hR hcon
    obtain ⟨hpa1, hpa2⟩ := hpoint a ha
    obtain ⟨hpb1, hpb2⟩ := hpoint b hb
    exact hR ⟨by rw [← hpa1, ← hpb1]; exact hcon.1,
              by rw [← hpa2, ← hpb2]; exact hcon.2⟩
  · show ((l.map (fun x => if x.id = r2.id then r2 else x)).map (fun x => x.id)).Nodup
    rw [List.map_map]
    have heq : ((fun x : Response => x.id) ∘ fun x => if x.id = r2.id then r2 else x) =
        (fun x : Response => x.id) := by
      funext x
      exact hfid x
    rw [heq]
    exact hnd

theorem respWf_pushDoc {l : List Response} {j : RespId} {d : DocId}
    (hpw : pairsUnique l) (hnd : idsNodupR l) :
    pairsUnique (l.map (fun x =>
      if x.id = j then { x with document_ids := x.document_ids ++ [d] } else x)) ∧
    idsNodupR (l.map (fun x =>
      if x.id = j then { x with document_ids := x.document_ids ++ [d] } else x)) := by
  have hpoint : ∀ x : Response,
      (if x.id = j then { x with document_ids := x.document_ids ++ [d] } else x).rfp_id =
        x.rfp_id ∧
      (if x.id = j then
        { x with document_ids := x.document_ids ++ [d] } else x).submitted_by =
        x.submitted_by ∧
      (if x.id = j then { x with document_ids := x.document_ids ++ [d] } else x).id =
        x.id := by
    intro x
    by_cases hc : x.id = j <;> simp [hc]
  constructor
  · refine List.pairwise_map.mpr (hpw.imp_of_mem ?_)
    intro a b _ _ hR hcon
    obtain ⟨hpa1, hpa2, -⟩ := hpoint a
    obtain ⟨hpb1, hpb2, -⟩ := hpoint b
    exact hR ⟨by rw [← hpa1, ← hpb1]; exact hcon.1,
              by rw [← hpa2, ← hpb2]; exact hcon.2⟩
  · show ((l.map (fun x =>
        if x.id = j then { x with document_ids := x.document_ids ++ [d] } else x)).map
        (fun x => x.id)).Nodup
    rw [List.map_map]
    have heq : ((fun x : Response => x.id) ∘ fun x =>
        if x.id = j then { x with document_ids := x.document_ids ++ [d] } else x) =
        (fun x : Response => x.id) := by
      funext x
      exact (hpoint x).2.2
    rw [heq]
    exact hnd

theorem respWf_filter {l : List Response} {j : RespId}
    (hpw : pairsUnique l) (hnd : idsNodupR l) :
    pairsUnique (l.filter (fun x => x.id ≠ j)) ∧
    idsNodupR (l.filter (fun x => x.id ≠ j)) := by
  constructor
  · exact List.Pairwise.sublist (List.filter_sublist l) hpw
  · exact hnd.sublist (List.Sublist.map _ (List.filter_sublist l))

theorem respWf_append {l : List Response} {r1 : Response}
    (hpair : l.find? (fun x => x.rfp_id == r1.rfp_id && x.submitted_by == r1.submitted_by) =
      none)
    (hfresh : l.find? (fun x => x.id == r1.id) = none)
    (hpw : pairsUnique l) (hnd : idsNodupR l) :
    pairsUnique (l ++ [r1]) ∧ idsNodupR (l ++ [r1]) := by
  constructor
  · refine List.pairwise_append.mpr ⟨hpw, List.pairwise_singleton _ _, ?_⟩
    intro a ha b hb
    have hb1 := List.mem_singleton.mp hb
    subst hb1
    have := List.find?_eq_none.mp hpair a ha
    simp only [Bool.and_eq_true, beq_iff_eq, not_and] at this
    rintro ⟨h1, h2⟩
    exact absurd h2 (this h1)
  · show ((l ++ [r1]).map (fun x => x.id)).Nodup
    rw [List.map_append]
    refine List.nodup_append.mpr ⟨hnd, by simp, ?_⟩
    intro a ha
    rcases List.mem_map.mp ha with ⟨x, hx, hxa⟩
    have := List.find?_eq_none.mp hfresh x hx
    simp only [beq_iff_eq] at this
    simp only [List.mem_map, List.mem_singleton]
    rintro ⟨y, hy, hya⟩
    subst hy
    exact this (by rw [hxa, ← hya])

/-- C6: creating a Response when the same submitter already has one for
that RFP always fails and leaves the store unchanged, failing with the
dedicated conflict error whenever the earlier guards (published parent,
unexpired deadline) pass; and every exposed operation preserves the
at-most-one-Response-per-(rfp_id, submitted_by) invariant (together
with primary key uniqueness) of the responses collection. -/
theorem c6_unique_response :
    (∀ (now : Time) (u : User) (nid : RespId) (p : ResponseCreatePayload) (db : DB),
      (existingResponse db p.rfp_id u.id).isSome = true →
      (∃ e, runOp (Op.opCreateResponse now u nid p) db = Except.error e) ∧
        applyOp (Op.opCreateResponse now u nid p) db = db) ∧
    (∀ (now : Time) (u : User) (nid : RespId) (p : ResponseCreatePayload) (db : DB)
      (rfp : RFP), u.role = Role.supplier → findRFP db p.rfp_id = some rfp →
      rfp.status = RfpStatus.published → ¬(rfp.deadline < now) →
      (existingResponse db p.rfp_id u.id).isSome = true →
      runOp (Op.opCreateResponse now u nid p) db =
        Except.error ApiError.responseExists) ∧
    (∀ (o : Op) (db : DB), respKeysUnique db → respIdsNodup db →
      respKeysUnique (applyOp o db) ∧ respIdsNodup (applyOp o db)) := by
  refine ⟨?_, ?_, ?_⟩
  · intro now u nid p db hdup
    cases hrun : runOp (Op.opCreateResponse now u nid p) db with
    | error e => exact ⟨⟨e, rfl⟩, applyOp_error hrun⟩
    | ok db1 =>
      obtain ⟨-, -, rfp, -, -, -, hpair, r1, -, -, -, -, -, -, -⟩ :=
        createResponse_ok hrun
      rw [hpair] at hdup
      simp at hdup
  · intro now u nid p db rfp hrole hfind hpub hdl hdup
    simp only [runOp, createResponse, hfind]
    simp [hrole, hpub, hdl, hdup]
  · intro o db hpw hnd
    cases hrun : runOp o db with
    | error e =>
      rw [applyOp_error hrun]
      exact ⟨hpw, hnd⟩
    | ok db1 =>
      rw [applyOp_ok hrun]
      cases o with
      | opCreateRFP now u nid p =>
        obtain ⟨-, -, r1, hdb, -⟩ := createRFP_ok hrun
        subst hdb
        exact ⟨hpw, hnd⟩
      | opUpdateRFP now u j p =>
        obtain ⟨-, -, rOld, r2, -, -, -, hdb, -⟩ := updateRFP_ok hrun
        subst hdb
        exact ⟨hpw, hnd⟩
      | opPublishRFP now u j =>
        obtain ⟨-, rOld, r2, -, -, -, hdb, -⟩ := publishRFP_ok hrun
        subst hdb
        exact ⟨hpw, hnd⟩
      | opCloseRFP now u j =>
        obtain ⟨-, rOld, r2, -, -, -, hdb, -⟩ := closeRFP_ok hrun
        subst hdb
        exact ⟨hpw, hnd⟩
      | opDeleteRFP u j =>
        obtain ⟨-, rOld, -, -, -, hdb⟩ := deleteRFP_ok hrun
        subst hdb
        exact ⟨hpw, hnd⟩
      | opCreateResponse now u nid p =>
        obtain ⟨-, hfresh, rfp, -, -, -, hpair, r1, hid1, hrfp1, hsb1, -, -, -, hdb⟩ :=
          createResponse_ok hrun
        have hpair1 : existingResponse db r1.rfp_id r1.submitted_by = none := by
          rw [hrfp1, hsb1]
          exact hpair
        have hfresh1 : findResponse db r1.id = none := by
          rw [hid1]
          exact hfresh
        have hres := respWf_append hpair1 hfresh1 hpw hnd
        by_cases hsub : r1.status = RespStatus.submitted
        · rw [if_pos hsub] at hdb
          subst hdb
          exact hres
        · rw [if_neg hsub] at hdb
          subst hdb
          exact hres
      | opUpdateResponse now u rid p =>
        obtain ⟨-, rOld, hfindR, -, -, rfp, -, -, r2, hid2, hrfp2, hsb2, -, -, -, hdb⟩ :=
          updateResponse_ok hrun
        have hres := respWf_put hfindR hid2 hrfp2 hsb2 hpw hnd
        by_cases hfire : rOld.status = RespStatus.draft ∧ r2.status = RespStatus.submitted
        · rw [if_pos hfire] at hdb
          subst hdb
          exact hres
        · rw [if_neg hfire] at hdb
          subst hdb
          exact hres
      | opDeleteResponse u rid =>
        obtain ⟨-, rOld, -, -, -, hdb⟩ := deleteResponse_ok hrun
        subst hdb
        exact respWf_filter hpw hnd
      | opSubmitResponse now u rid =>
        obtain ⟨-, rOld, hfindR, -, -, rfp, -, -, r2, hid2, hrfp2, hsb2, -, -, -, hdb⟩ :=
          submitResponse_ok hrun
        subst hdb
        exact respWf_put hfindR hid2 hrfp2 hsb2 hpw hnd
      | opReviewResponse now u rid outcome notes =>
        obtain ⟨-, rOld, hfindR, rfp, -, -, -, r2, hid2, hrfp2, hsb2, -, -, -, -, hdb⟩ :=
          reviewResponse_ok hrun
        subst hdb
        exact respWf_put hfindR hid2 hrfp2 hsb2 hpw hnd
      | opUploadDocument u nid p =>
        obtain ⟨-, -, -, -, -, hdb⟩ := uploadDocument_ok hrun
        rcases hpr : p.rfp_id with _ | ri <;> rcases hpp : p.response_id with _ | pi <;>
          simp only [hpr, hpp] at hdb <;> subst hdb
        · exact ⟨hpw, hnd⟩
        · exact respWf_pushDoc hpw hnd
        · exact ⟨hpw, hnd⟩
        · exact respWf_pushDoc hpw hnd

/-! Success of the save pipeline on the update paths. -/

theorem responsePreSave_false (now : Time) (r1 : Response) :
    responsePreSave now false r1 = r1 := by
  simp [responsePreSave]

theorem preSaveT_submitted {now : Time} {r1 : Response}
    (hs : r1.status ≠ RespStatus.draft) :
    (responsePreSave now true r1).submitted_at ≠ none := by
  simp only [responsePreSave]
  split
  · split <;> simp
  · next hc =>
    have hne : r1.submitted_at ≠ none := fun h0 => hc ⟨trivial, hs, h0⟩
    split <;> simpa using hne

theorem preSaveT_reviewed {now : Time} {r1 : Response}
    (hs : r1.status = RespStatus.approved ∨ r1.status = RespStatus.rejected) :
    (responsePreSave now true r1).reviewed_at ≠ none := by
  simp only [responsePreSave]
  split
  · split
    · simp
    · next hc2 =>
      have hne : r1.reviewed_at ≠ none := fun h0 => hc2 ⟨trivial, by simpa using hs, h0⟩
      simpa using hne
  · split
    · simp
    · next hc2 =>
      have hne : r1.reviewed_at ≠ none := fun h0 => hc2 ⟨trivial, hs, h0⟩
      simpa using hne

theorem responseSave_assign_ok (now : Time) (r : Response) (p : ResponsePayload)
    (hguard : ¬(r.status = RespStatus.approved ∨ r.status = RespStatus.rejected))
    (hsub : r.status ≠ RespStatus.draft → r.submitted_at ≠ none) :
    ∃ r2 : Response,
      responseSave now (decide ((assignResponse r p).status ≠ r.status))
        (assignResponse r p) = Except.ok r2 ∧
      r2.id = r.id ∧ r2.rfp_id = r.rfp_id ∧ r2.submitted_by = r.submitted_by ∧
      r2.proposal = p.proposal ∧ r2.status = p.status.getD r.status ∧
      (p.status.getD r.status ≠ RespStatus.draft → r2.submitted_at ≠ none) ∧
      ((p.status.getD r.status = RespStatus.approved ∨
        p.status.getD r.status = RespStatus.rejected) → r2.reviewed_at ≠ none) := by
  have hfields := responsePreSave_fields now
    (decide ((assignResponse r p).status ≠ r.status)) (assignResponse r p)
  have hassign : (assignResponse r p).id = r.id ∧
      (assignResponse r p).rfp_id = r.rfp_id ∧
      (assignResponse r p).submitted_by = r.submitted_by ∧
      (assignResponse r p).proposal = p.proposal ∧
      (assignResponse r p).status = p.status.getD r.status ∧
      (assignResponse r p).submitted_at = r.submitted_at ∧
      (assignResponse r p).reviewed_at = r.reviewed_at := by
    cases hps : p.status <;> simp [assignResponse, hps]
  set r1 := assignResponse r p with hr1
  set m := decide (r1.status ≠ r.status) with hm
  have hstatus : (responsePreSave now m r1).status = p.status.getD r.status :=
    hfields.2.2.2.1.trans hassign.2.2.2.2.1
  have hsa : p.status.getD r.status ≠ RespStatus.draft →
      (responsePreSave now m r1).submitted_at ≠ none := by
    intro hsd
    by_cases hmod : r1.status = r.status
    · have hm0 : m = false := by simp [hm, hmod]
      rw [hm0, responsePreSave_false]
      rw [hassign.2.2.2.2.2.1]
      refine hsub ?_
      rw [← hassign.2.2.2.2.1, hmod] at hsd
      exact hsd
    · have hm1 : m = true := by simp [hm, hmod]
      rw [hm1]
      refine preSaveT_submitted ?_
      rw [hassign.2.2.2.2.1]
      exact hsd
  have hra : (p.status.getD r.status = RespStatus.approved ∨
      p.status.getD r.status = RespStatus.rejected) →
      (responsePreSave now m r1).reviewed_at ≠ none := by
    intro hsd
    have hmod : r1.status ≠ r.status := by
      intro h0
      rw [hassign.2.2.2.2.1] at h0
      rw [← h0] at hguard
      exact hguard hsd
    have hm1 : m = true := by simp [hm, hmod]
    rw [hm1]
    refine preSaveT_reviewed ?_
    rw [hassign.2.2.2.2.1]
    exact hsd
  have hvalid : responseValid (responsePreSave now m r1) = true := by
    simp only [responseValid, Bool.and_eq_true, Bool.or_eq_true, decide_eq_true_eq]
    constructor
    · by_cases hd : p.status.getD r.status = RespStatus.draft
      · left
        rw [hstatus]
        exact hd
      · right
        exact hsa hd
    · by_cases hd : p.status.getD r.status = RespStatus.approved ∨
          p.status.getD r.status = RespStatus.rejected
      · right
        exact hra hd
      · left
        rw [hstatus]
        exact hd
  refine ⟨responsePreSave now m r1, ?_, hfields.1.trans hassign.1,
    hfields.2.1.trans hassign.2.1, hfields.2.2.1.trans hassign.2.2.1,
    hfields.2.2.2.2.1.trans hassign.2.2.2.1, hstatus, hsa, hra⟩
  simp only [responseSave]
  rw [if_pos hvalid]

/-- The shared success shape of updateResponse when its guards pass:
the operation succeeds regardless of the parent RFP status, the saved
response carries every payload field including the status, and the
stamping hooks have run. -/
theorem updateResponse_run_ok {now : Time} {u : User} {i : RespId} {p : ResponsePayload}
    {db : DB} {r : Response} {rfp : RFP}
    (hrole : u.role = Role.supplier) (hr : findResponse db i = some r)
    (hown : r.submitted_by = u.id)
    (hguard : ¬(r.status = RespStatus.approved ∨ r.status = RespStatus.rejected))
    (hrfp : findRFP db r.rfp_id = some rfp) (hdl : ¬(rfp.deadline < now))
    (hsub : r.status ≠ RespStatus.draft → r.submitted_at ≠ none) :
    ∃ r2 : Response,
      runOp (Op.opUpdateResponse now u i p) db =
        Except.ok (if r.status = RespStatus.draft ∧ r2.status = RespStatus.submitted
                   then incResponseCount (putResponse db r2) r.rfp_id
                   else putResponse db r2) ∧
      r2.id = r.id ∧ r2.rfp_id = r.rfp_id ∧ r2.submitted_by = r.submitted_by ∧
      r2.proposal = p.proposal ∧ r2.status = p.status.getD r.status ∧
      (p.status.getD r.status ≠ RespStatus.draft → r2.submitted_at ≠ none) ∧
      ((p.status.getD r.status = RespStatus.approved ∨
        p.status.getD r.status = RespStatus.rejected) → r2.reviewed_at ≠ none) := by
  obtain ⟨r2, hsave, hprops⟩ := responseSave_assign_ok now r p hguard hsub
  refine ⟨r2, ?_, hprops⟩
  simp only [runOp, updateResponse, hr, hrfp, hsave]
  simp only [hrole, hown, hguard, hdl]
  simp [apply_ite Except.ok]

/-- C10: when the actor is the owning supplier, the Response is neither
approved nor rejected, and the parent RFP deadline has not passed,
updateResponse succeeds and copies every payload field onto the
Response, including a directly supplied status (submitted, under_review,
approved or rejected alike, with no review action involved), after
which the stored record carries submitted_at whenever its status left
draft and reviewed_at whenever it became approved or rejected. -/
theorem c10_update_copies (now : Time) (u : User) (i : RespId) (p : ResponsePayload)
    (db : DB) (r : Response) (rfp : RFP)
    (hrole : u.role = Role.supplier) (hr : findResponse db i = some r)
    (hown : r.submitted_by = u.id)
    (hguard : ¬(r.status = RespStatus.approved ∨ r.status = RespStatus.rejected))
    (hrfp : findRFP db r.rfp_id = some rfp) (hdl : ¬(rfp.deadline < now))
    (hsub : r.status ≠ RespStatus.draft → r.submitted_at ≠ none) :
    ∃ r2 : Response,
      (runOp (Op.opUpdateResponse now u i p) db).toOption.isSome = true ∧
      findResponse (applyOp (Op.opUpdateResponse now u i p) db) i = some r2 ∧
      r2.status = p.status.getD r.status ∧ r2.proposal = p.proposal ∧
      (p.status.getD r.status ≠ RespStatus.draft → r2.submitted_at ≠ none) ∧
      ((p.status.getD r.status = RespStatus.approved ∨
        p.status.getD r.status = RespStatus.rejected) → r2.reviewed_at ≠ none) := by
  obtain ⟨r2, hrun, hid2, -, -, hprop, hstat, hsa, hra⟩ :=
    updateResponse_run_ok hrole hr hown hguard hrfp hdl hsub
  refine ⟨r2, by rw [hrun]; rfl, ?_, hstat, hprop, hsa, hra⟩
  rw [applyOp_ok hrun]
  have hput : findResponse (putResponse db r2) i = some r2 := by
    rw [findResponse_put, hr]
    show some (if r.id = r2.id then r2 else r) = some r2
    rw [if_pos hid2.symm]
  by_cases hfire : r.status = RespStatus.draft ∧ r2.status = RespStatus.submitted
  · rw [if_pos hfire]
    exact hput
  · rw [if_neg hfire]
    exact hput

theorem runOp_ok_of_isSome {o : Op} {db : DB}
    (h : (runOp o db).toOption.isSome = true) :
    ∃ db1, runOp o db = Except.ok db1 := by
  cases hrun : runOp o db with
  | ok d => exact ⟨d, rfl⟩
  | error e =>
    rw [hrun] at h
    simp [Except.toOption] at h

theorem responsePreSave_submitted_at (now : Time) (m : Bool) (r : Response) :
    (responsePreSave now m r).submitted_at = r.submitted_at ∨
    (responsePreSave now m r).submitted_at = some now := by
  simp only [responsePreSave]
  split <;> split <;> simp_all

theorem responseSave_ok_of_stamped (now : Time) (m : Bool) (r1 : Response)
    (h2 : r1.submitted_at ≠ none) (h3 : r1.reviewed_at ≠ none) :
    responseSave now m r1 = Except.ok (responsePreSave now m r1) := by
  have hv : responseValid (responsePreSave now m r1) = true := by
    simp only [responseValid, Bool.and_eq_true, Bool.or_eq_true, decide_eq_true_eq]
    constructor
    · right
      rcases responsePreSave_submitted_at now m r1 with h | h <;> simp [h, h2]
    · right
      rcases responsePreSave_reviewed_at now m r1 with h | h <;> simp [h, h3]
  simp only [responseSave]
  rw [if_pos hv]

/-- C2 (amended): a review by the parent RFP owner is permitted exactly
from submitted or under_review, rejecting other states and non-owners;
a successful review sets the status to the requested outcome, records
the reviewer notes, and stamps reviewed_at with the review time for
every outcome — including under_review, for which the original claim
wrongly said reviewed_at stays absent. -/
theorem c2_review_stamps (now : Time) (u : User) (i : RespId) (outcome : ReviewOutcome)
    (notes : Option String) (db : DB) (r : Response) (rfp : RFP)
    (hr : findResponse db i = some r) (hrfp : findRFP db r.rfp_id = some rfp)
    (hrole : u.role = Role.buyer) :
    (rfp.created_by ≠ u.id →
      runOp (Op.opReviewResponse now u i outcome notes) db =
        Except.error ApiError.accessDenied) ∧
    (rfp.created_by = u.id →
      ¬(r.status = RespStatus.submitted ∨ r.status = RespStatus.under_review) →
      runOp (Op.opReviewResponse now u i outcome notes) db =
        Except.error ApiError.cannotReviewResponse) ∧
    (rfp.created_by = u.id →
      (r.status = RespStatus.submitted ∨ r.status = RespStatus.under_review) →
      r.submitted_at ≠ none →
      ∃ r2 : Response,
        runOp (Op.opReviewResponse now u i outcome notes) db =
          Except.ok (putResponse db r2) ∧
        r2.id = r.id ∧ r2.status = outcome.toStatus ∧
        r2.reviewer_notes = notes ∧ r2.reviewed_at = some now) := by
  refine ⟨?_, ?_, ?_⟩
  · intro hno
    simp only [runOp, reviewResponse, hr, hrfp]
    simp [hrole, hno]
  · intro hown hns
    simp only [runOp, reviewResponse, hr, hrfp]
    simp [hrole, hown, hns]
  · intro hown hst hsubat
    have hsave := responseSave_ok_of_stamped now
      (decide (outcome.toStatus ≠ r.status))
      { r with
        status := outcome.toStatus,
        reviewer_notes := notes,
        reviewed_at := some now }
      (by simpa using hsubat) (by simp)
    have hok : (runOp (Op.opReviewResponse now u i outcome notes) db).toOption.isSome =
        true := by
      simp only [runOp, reviewResponse, hr, hrfp, hsave]
      simp [hrole, hown, hst, Except.toOption]
    obtain ⟨db1, hdb1⟩ := runOp_ok_of_isSome hok
    obtain ⟨-, rOld, hfind', rfp', -, -, -, r2, hid2, -, -, hst2, hnotes2, hrev2, -,
      hput⟩ := reviewResponse_ok hdb1
    rw [hr] at hfind'
    injection hfind' with he
    subst he
    exact ⟨r2, by rw [hdb1, hput], hid2, hst2, hnotes2, hrev2⟩

/-- C4 (amended): creating a Response checks that the parent RFP is
published (invalid-state error) and unexpired (expired error), but
update and submit check only the deadline: an expired parent yields the
expired error on all three paths, while updating a Response whose
parent is closed but unexpired succeeds — the parent status is not
re-checked on update or submit. -/
theorem c4_deadline_guards :
    (∀ (now : Time) (u : User) (nid : RespId) (p : ResponseCreatePayload) (db : DB)
      (rfp : RFP), u.role = Role.supplier → findRFP db p.rfp_id = some rfp →
      rfp.status ≠ RfpStatus.published →
      runOp (Op.opCreateResponse now u nid p) db =
        Except.error ApiError.cannotRespond) ∧
    (∀ (now : Time) (u : User) (nid : RespId) (p : ResponseCreatePayload) (db : DB)
      (rfp : RFP), u.role = Role.supplier → findRFP db p.rfp_id = some rfp →
      rfp.status = RfpStatus.published → rfp.deadline < now →
      runOp (Op.opCreateResponse now u nid p) db = Except.error ApiError.rfpExpired) ∧
    (∀ (now : Time) (u : User) (i : RespId) (p : ResponsePayload) (db : DB)
      (r : Response) (rfp : RFP), u.role = Role.supplier →
      findResponse db i = some r → r.submitted_by = u.id →
      ¬(r.status = RespStatus.approved ∨ r.status = RespStatus.rejected) →
      findRFP db r.rfp_id = some rfp → rfp.deadline < now →
      runOp (Op.opUpdateResponse now u i p) db = Except.error ApiError.rfpExpired) ∧
    (∀ (now : Time) (u : User) (i : RespId) (db : DB) (r : Response) (rfp : RFP),
      u.role = Role.supplier → findResponse db i = some r → r.submitted_by = u.id →
      r.status = RespStatus.draft → findRFP db r.rfp_id = some rfp →
      rfp.deadline < now →
      runOp (Op.opSubmitResponse now u i) db = Except.error ApiError.rfpExpired) ∧
    (∀ (now : Time) (u : User) (i : RespId) (p : ResponsePayload) (db : DB)
      (r : Response) (rfp : RFP), u.role = Role.supplier →
      findResponse db i = some r → r.submitted_by = u.id →
      ¬(r.status = RespStatus.approved ∨ r.status = RespStatus.rejected) →
      findRFP db r.rfp_id = some rfp → ¬(rfp.deadline < now) →
      (r.status ≠ RespStatus.draft → r.submitted_at ≠ none) →
      (runOp (Op.opUpdateResponse now u i p) db).toOption.isSome = true) := by
  refine ⟨?_, ?_, ?_, ?_, ?_⟩
  · intro now u nid p db rfp hrole hfind hne
    simp only [runOp, createResponse, hfind]
    simp [hrole, hne]
  · intro now u nid p db rfp hrole hfind hpub hdl
    simp only [runOp, createResponse, hfind]
    simp [hrole, hpub, hdl]
  · intro now u i p db r rfp hrole hr hown hguard hrfp hdl
    simp only [runOp, updateResponse, hr, hrfp]
    simp [hrole, hown, hguard, hdl]
  · intro now u i db r rfp hrole hr hown hdraft hrfp hdl
    simp only [runOp, submitResponse, hr, hrfp]
    simp [hrole, hown, hdraft, hdl]
  · intro now u i p db r rfp hrole hr hown hguard hrfp hdl hsub
    obtain ⟨r2, hrun, -⟩ := updateResponse_run_ok hrole hr hown hguard hrfp hdl hsub
    rw [hrun]
    rfl

theorem rfpSave_assign_ok (now : Time) (r : RFP) (p : RFPPayload)
    (hdl : now < p.deadline)
    (hpub : r.status = RfpStatus.published → r.published_at ≠ none) :
    ∃ r2 : RFP,
      rfpSave now (decide ((assignRFP r p).status ≠ r.status)) (assignRFP r p) =
        Except.ok r2 ∧
      r2.id = r.id ∧ r2.deadline = p.deadline ∧
      r2.status = p.status.getD r.status := by
  have hassign : (assignRFP r p).id = r.id ∧ (assignRFP r p).deadline = p.deadline ∧
      (assignRFP r p).status = p.status.getD r.status ∧
      (assignRFP r p).published_at = r.published_at := by
    cases hps : p.status <;> simp [assignRFP, hps]
  set r1 := assignRFP r p with hr1
  set m := decide (r1.status ≠ r.status) with hm
  have hfields := rfpPreSave_fields now m r1
  have hval : rfpValid now (rfpPreSave now m r1) = true := by
    simp only [rfpValid, Bool.and_eq_true, Bool.or_eq_true, decide_eq_true_eq]
    refine ⟨?_, ?_⟩
    · rw [hfields.2.2.1, hassign.2.1]
      exact hdl
    · by_cases hs : r1.status = RfpStatus.published
      · right
        by_cases hmod : r1.status = r.status
        · have hm0 : m = false := by simp [hm, hmod]
          rw [hm0]
          have hid : rfpPreSave now false r1 = r1 := by simp [rfpPreSave]
          rw [hid, hassign.2.2.2]
          exact hpub (hmod ▸ hs)
        · have hm1 : m = true := by simp [hm, hmod]
          rw [hm1]
          simp only [rfpPreSave]
          split
          · simp
          · next hc =>
            intro h0
            exact hc ⟨trivial, hs, h0⟩
      · left
        rw [hfields.2.2.2.1]
        exact hs
  refine ⟨rfpPreSave now m r1, ?_, hfields.1.trans hassign.1,
    hfields.2.2.1.trans hassign.2.1, hfields.2.2.2.1.trans hassign.2.2.1⟩
  simp only [rfpSave]
  rw [if_pos hval]

/-- C9 (amended): publish and close on an RFP whose deadline has passed
fail with a mongoose validation error — the schema deadline validator
runs on every save, not only at creation — and leave the store
unchanged; update, by contrast, succeeds even on an expired RFP because
its validated payload is required to carry a fresh future deadline,
which replaces the expired one before the save validates. -/
theorem c9_expired_saves (now : Time) (u : User) (i : RfpId) (p : RFPPayload)
    (db : DB) (r : RFP) (hrole : u.role = Role.buyer) (hfind : findRFP db i = some r)
    (hown : r.created_by = u.id) :
    (r.status = RfpStatus.draft → r.deadline ≤ now →
      runOp (Op.opPublishRFP now u i) db = Except.error ApiError.validationFailed ∧
      applyOp (Op.opPublishRFP now u i) db = db) ∧
    (r.status = RfpStatus.published → r.deadline ≤ now →
      runOp (Op.opCloseRFP now u i) db = Except.error ApiError.validationFailed ∧
      applyOp (Op.opCloseRFP now u i) db = db) ∧
    (¬(r.status = RfpStatus.closed ∨ r.status = RfpStatus.cancelled) →
      now < p.deadline → (r.status = RfpStatus.published → r.published_at ≠ none) →
      ∃ r2 : RFP, runOp (Op.opUpdateRFP now u i p) db = Except.ok (putRFP db r2) ∧
        findRFP (putRFP db r2) i = some r2 ∧ r2.deadline = p.deadline) := by
  refine ⟨?_, ?_, ?_⟩
  · intro hdraft hexp
    have hsave : rfpSave now true
        { r with status := RfpStatus.published, published_at := some now } =
        Except.error ApiError.validationFailed := by
      have hpre : rfpPreSave now true
          { r with status := RfpStatus.published, published_at := some now } =
          { r with status := RfpStatus.published, published_at := some now } := by
        simp [rfpPreSave]
      simp only [rfpSave, hpre]
      have hv : rfpValid now
          { r with status := RfpStatus.published, published_at := some now } = false := by
        simp [rfpValid, Nat.not_lt.mpr hexp]
      rw [hv]
      simp
    have hrunEq : runOp (Op.opPublishRFP now u i) db =
        Except.error ApiError.validationFailed := by
      simp only [runOp, publishRFP, hfind, hsave]
      simp [hrole, hown, hdraft]
    exact ⟨hrunEq, applyOp_error hrunEq⟩
  · intro hpub hexp
    have hsave : rfpSave now true { r with status := RfpStatus.closed } =
        Except.error ApiError.validationFailed := by
      have hpre : rfpPreSave now true { r with status := RfpStatus.closed } =
          { r with status := RfpStatus.closed } := by
        simp [rfpPreSave]
      simp only [rfpSave, hpre]
      have hv : rfpValid now { r with status := RfpStatus.closed } = false := by
        simp [rfpValid, Nat.not_lt.mpr hexp]
      rw [hv]
      simp
    have hrunEq : runOp (Op.opCloseRFP now u i) db =
        Except.error ApiError.validationFailed := by
      simp only [runOp, closeRFP, hfind, hsave]
      simp [hrole, hown, hpub]
    exact ⟨hrunEq, applyOp_error hrunEq⟩
  · intro hguard hdl hpub
    obtain ⟨r2, hsave, hid2, hdl2, -⟩ := rfpSave_assign_ok now r p hdl hpub
    have hrunEq : runOp (Op.opUpdateRFP now u i p) db = Except.ok (putRFP db r2) := by
      simp only [runOp, updateRFP, hfind, hsave]
      simp [hrole, hown, hguard, rfpPayloadValid, hdl]
    refine ⟨r2, hrunEq, ?_, hdl2⟩
    rw [findRFP_put, hfind]
    show some (if r.id = r2.id then r2 else r) = some r2
    rw [if_pos hid2.symm]

/-- C8: a draft RFP is individually retrievable only by its owner —
anonymous callers and other actors get a forbidden error — while a
published RFP is returned to any caller, expired or not; and a
default listing for a supplier contains exactly the published RFPs whose
deadline is still in the future, so an expired published RFP is
excluded from it yet remains individually retrievable. -/
theorem c8_visibility :
    (∀ (db : DB) (i : RfpId) (r : RFP) (u : Option User), findRFP db i = some r →
      r.status = RfpStatus.draft →
      (u = none ∨ ∃ x : User, u = some x ∧ r.created_by ≠ x.id) →
      getRFPById u i db = Except.error ApiError.accessDenied) ∧
    (∀ (db : DB) (i : RfpId) (r : RFP) (x : User), findRFP db i = some r →
      r.status = RfpStatus.draft → r.created_by = x.id →
      getRFPById (some x) i db = Except.ok r) ∧
    (∀ (db : DB) (i : RfpId) (r : RFP) (u : Option User), findRFP db i = some r →
      r.status = RfpStatus.published → getRFPById u i db = Except.ok r) ∧
    (∀ (now : Time) (x : User) (db : DB) (r : RFP), x.role = Role.supplier →
      (r ∈ getAllRFPs now (some x) defaultRFPQuery db ↔
        r ∈ db.rfps ∧ r.status = RfpStatus.published ∧ now < r.deadline)) := by
  refine ⟨?_, ?_, ?_, ?_⟩
  · intro db i r u hfind hdraft hu
    rcases hu with hu | ⟨x, hu, hne⟩ <;> subst hu <;>
      simp [getRFPById, hfind, hdraft, *]
  · intro db i r x hfind hdraft hcb
    simp [getRFPById, hfind, hdraft, hcb]
  · intro db i r u hfind hpub
    cases u <;> simp [getRFPById, hfind, hpub]
  · intro now x db r hrole
    simp [getAllRFPs, rfpListFilter, defaultRFPQuery, hrole, List.mem_filter,
      and_assoc]

/-- C7 (amended): upload validates the documentType/parent-id
requirement before persisting (rfp_document without an rfp_id and
response_document without a response_id fail with the validation
error); a successful upload persists the Document with exactly the
supplied parent ids and appends its id to the documentIds of each
supplied parent — to the required parent for rfp_document and
response_document uploads, to no parent at all for an attachment
supplying neither id, and to both parents only when the uploader owns
both, so the exactly-one-matching-parent linkage of the original claim
does not hold in general. -/
theorem c7_upload_linkage :
    (∀ (u : User) (nid : DocId) (p : UploadPayload) (db : DB),
      p.document_type = DocType.rfp_document → p.rfp_id = none →
      runOp (Op.opUploadDocument u nid p) db = Except.error ApiError.rfpIdRequired) ∧
    (∀ (u : User) (nid : DocId) (p : UploadPayload) (db : DB),
      p.document_type = DocType.response_document → p.response_id = none →
      runOp (Op.opUploadDocument u nid p) db =
        Except.error ApiError.responseIdRequired) ∧
    (∀ (u : User) (nid : DocId) (p : UploadPayload) (db db' : DB),
      runOp (Op.opUploadDocument u nid p) db = Except.ok db' →
      findDocument db' nid = some
        { id := nid, document_type := p.document_type, rfp_id := p.rfp_id,
          response_id := p.response_id, uploaded_by := u.id }) ∧
    (∀ (u : User) (nid : DocId) (p : UploadPayload) (db db' : DB),
      runOp (Op.opUploadDocument u nid p) db = Except.ok db' →
      p.rfp_id = none → db'.rfps = db.rfps) ∧
    (∀ (u : User) (nid : DocId) (p : UploadPayload) (db db' : DB),
      runOp (Op.opUploadDocument u nid p) db = Except.ok db' →
      p.response_id = none → db'.responses = db.responses) ∧
    (∀ (u : User) (nid : DocId) (p : UploadPayload) (db db' : DB) (ri : RfpId)
      (pi : RespId), runOp (Op.opUploadDocument u nid p) db = Except.ok db' →
      p.rfp_id = some ri → p.response_id = some pi →
      ∃ (rfp : RFP) (resp : Response), findRFP db ri = some rfp ∧
        rfp.created_by = u.id ∧ findResponse db pi = some resp ∧
        resp.submitted_by = u.id) ∧
    (∀ (u : User) (nid : DocId) (p : UploadPayload) (db db' : DB) (ri : RfpId)
      (rfp : RFP), runOp (Op.opUploadDocument u nid p) db = Except.ok db' →
      p.rfp_id = some ri → findRFP db ri = some rfp →
      findRFP db' ri = some { rfp with document_ids := rfp.document_ids ++ [nid] }) ∧
    (∀ (u : User) (nid : DocId) (p : UploadPayload) (db db' : DB) (pi : RespId)
      (resp : Response), runOp (Op.opUploadDocument u nid p) db = Except.ok db' →
      p.response_id = some pi → findResponse db pi = some resp →
      findResponse db' pi = some
        { resp with document_ids := resp.document_ids ++ [nid] }) := by
  refine ⟨?_, ?_, ?_, ?_, ?_, ?_, ?_, ?_⟩
  · intro u nid p db hty hid
    simp only [runOp, uploadDocument]
    simp [hty, hid]
  · intro u nid p db hty hid
    have hne : ¬(p.document_type = DocType.rfp_document ∧ p.rfp_id = none) := by
      rintro ⟨h1, -⟩
      rw [hty] at h1
      cases h1
    simp only [runOp, uploadDocument]
    simp [hne, hty, hid]
  · intro u nid p db db' hrun
    obtain ⟨-, -, -, -, hfresh, hdb⟩ := uploadDocument_ok hrun
    have hf : db.documents.find? (fun x => x.id == nid) = none := hfresh
    have hdoc : findDocument { db with documents := db.documents ++
        [{ id := nid, document_type := p.document_type, rfp_id := p.rfp_id,
           response_id := p.response_id, uploaded_by := u.id }] } nid = some
        { id := nid, document_type := p.document_type, rfp_id := p.rfp_id,
          response_id := p.response_id, uploaded_by := u.id } := by
      show (db.documents ++ [_]).find? (fun x : Document => x.id == nid) = _
      rw [List.find?_append, hf]
      simp
    rcases hpr : p.rfp_id with _ | ri <;> rcases hpp : p.response_id with _ | pi <;>
      simp only [hpr, hpp] at hdb hdoc ⊢ <;> subst hdb <;> exact hdoc
  · intro u nid p db db' hrun hnone
    obtain ⟨-, -, -, -, -, hdb⟩ := uploadDocument_ok hrun
    rcases hpp : p.response_id with _ | pi <;>
      simp only [hnone, hpp] at hdb <;> subst hdb <;> rfl
  · intro u nid p db db' hrun hnone
    obtain ⟨-, -, -, -, -, hdb⟩ := uploadDocument_ok hrun
    rcases hpr : p.rfp_id with _ | ri <;>
      simp only [hnone, hpr] at hdb <;> subst hdb <;> rfl
  · intro u nid p db db' ri pi hrun hri hpi
    obtain ⟨-, -, hrfpOwn, hrespOwn, -, -⟩ := uploadDocument_ok hrun
    obtain ⟨rfp, h1, h2⟩ := hrfpOwn ri hri
    obtain ⟨resp, h3, h4⟩ := hrespOwn pi hpi
    exact ⟨rfp, resp, h1, h2, h3, h4⟩
  · intro u nid p db db' ri rfp hrun hri hr
    obtain ⟨-, -, -, -, -, hdb⟩ := uploadDocument_ok hrun
    rcases hpp : p.response_id with _ | pi <;>
      simp only [hri, hpp] at hdb <;> subst hdb
    · rw [findRFP_pushDoc]
      show ((findRFP db ri).map fun x =>
        if x.id = ri then { x with document_ids := x.document_ids ++ [nid] } else x) = _
      rw [hr]
      show some (if rfp.id = ri then _ else rfp) = _
      rw [if_pos (findRFP_id hr)]
    · rw [findRFP_pushRespDoc, findRFP_pushDoc]
      show ((findRFP db ri).map fun x =>
        if x.id = ri then { x with document_ids := x.document_ids ++ [nid] } else x) = _
      rw [hr]
      show some (if rfp.id = ri then _ else rfp) = _
      rw [if_pos (findRFP_id hr)]
  · intro u nid p db db' pi resp hrun hpi hr
    obtain ⟨-, -, -, -, -, hdb⟩ := uploadDocument_ok hrun
    rcases hpr : p.rfp_id with _ | ri <;>
      simp only [hpr, hpi] at hdb <;> subst hdb
    · rw [findResponse_pushDoc]
      show ((findResponse db pi).map fun x =>
        if x.id = pi then { x with document_ids := x.document_ids ++ [nid] } else x) = _
      rw [hr]
      show some (if resp.id = pi then _ else resp) = _
      rw [if_pos (findResponse_id hr)]
    · rw [findResponse_pushDoc]
      show ((findResponse db pi).map fun x =>
        if x.id = pi then { x with document_ids := x.document_ids ++ [nid] } else x) = _
      rw [hr]
      show some (if resp.id = pi then _ else resp) = _
      rw [if_pos (findResponse_id hr)]

/-! Counterexamples: concrete executions on which the claims, as
stated, fail. -/

/-- C1 counterexample: at time 5 the owning supplier updates Response 1
of the reached state dbE from under_review back to submitted — a
transition of a Response into submitted — yet the response_count of its
RFP stays at 1 instead of being incremented by exactly one. -/
theorem c1_counterexample :
    (findResponse dbE 1).map (fun x => x.status) = some RespStatus.under_review ∧
    (findResponse dbF 1).map (fun x => x.status) = some RespStatus.submitted ∧
    (findRFP dbE 1).map (fun x => x.response_count) = some 1 ∧
    (findRFP dbF 1).map (fun x => x.response_count) = some 1 := by
  decide

/-- C2 counterexample: reviewing submitted Response 1 with outcome
under_review at time 4 stamps reviewed_at with the review time, while
the claim says reviewed_at remains absent after an under_review
review. -/
theorem c2_counterexample :
    (findResponse dbD 1).map (fun x => x.reviewed_at) = some none ∧
    (findResponse dbE 1).map (fun x => x.status) = some RespStatus.under_review ∧
    (findResponse dbE 1).map (fun x => x.reviewed_at) = some (some 4) := by
  decide

/-- C3 counterexample: closing published RFP 1 at time 2 leaves
published_at present while the status is closed, refuting the claimed
biconditional between published status and presence of published_at. -/
theorem c3_counterexample :
    (findRFP dbClosed 1).map (fun x => (x.status, x.published_at)) =
      some (RfpStatus.closed, some 1) := by
  decide

/-- C4 counterexample: after RFP 1 is closed with its deadline still in
the future, the owning supplier updates draft Response 1 at time 4 and
the operation succeeds, while the claim says updating a Response whose
parent is no longer published is rejected. -/
theorem c4_counterexample :
    (findRFP dbClosedWithResponse 1).map (fun x => x.status) =
      some RfpStatus.closed ∧
    (runOp (Op.opUpdateResponse 4 supplier2 1 ⟨"proposal text", none⟩)
      dbClosedWithResponse).toOption.isSome = true := by
  decide

/-- C5 counterexample: a create request whose validated payload carries
status cancelled persists RFP 1 directly in status cancelled, so the
exposed actions do reach cancelled. -/
theorem c5_counterexample :
    (findRFP dbCancelledAtBirth 1).map (fun x => x.status) =
      some RfpStatus.cancelled := by
  decide

/-- C7 counterexample: an attachment upload supplying neither parent id
persists Document 7 while appending it to the documentIds of no parent
at all — the document_ids of both RFP 1 and Response 1 stay empty — so
a persisted Document is not always appended to exactly one parent. -/
theorem c7_counterexample :
    (findDocument dbOrphanDoc 7).isSome = true ∧
    (findRFP dbOrphanDoc 1).map (fun x => x.document_ids) = some [] ∧
    (findResponse dbOrphanDoc 1).map (fun x => x.document_ids) = some [] := by
  decide

/-- C9 counterexample: RFP 1 is published with deadline 100, which has
passed at time 200; its owner updates it with a payload carrying the
future deadline 300 and the operation succeeds and changes the RFP,
while the claim says every update of an expired RFP fails with a
validation error and leaves it unchanged. -/
theorem c9_counterexample :
    (findRFP dbB 1).map (fun x => (x.status, x.deadline)) =
      some (RfpStatus.published, 100) ∧
    (runOp (Op.opUpdateRFP 200 buyer1 1 ⟨300, none⟩) dbB).toOption.isSome = true ∧
    (findRFP (applyOp (Op.opUpdateRFP 200 buyer1 1 ⟨300, none⟩) dbB) 1).map
      (fun x => x.deadline) = some 300 := by
  decide

/-! Witnesses: the claim theorems applied at concrete inputs. -/

/-- C1 witness: the explicit submit at time 3 against dbC increments
the response_count of RFP 1 from 0 to 1, as the exact-delta theorem
predicts. -/
theorem c1_witness :
    findRFP dbC 1 = some ⟨1, 1, 100, RfpStatus.published, some 1, 0, []⟩ ∧
    findRFP (applyOp (Op.opSubmitResponse 3 supplier2 1) dbC) 1 =
      some ⟨1, 1, 100, RfpStatus.published, some 1, 1, []⟩ ∧
    (⟨1, 1, 100, RfpStatus.published, some 1, 1, []⟩ : RFP).response_count =
      (⟨1, 1, 100, RfpStatus.published, some 1, 0, []⟩ : RFP).response_count +
        (if submitEvent (Op.opSubmitResponse 3 supplier2 1) dbC 1 = true then 1
         else 0) :=
  ⟨by decide, by decide,
    c1_count_exact (Op.opSubmitResponse 3 supplier2 1) dbC 1
      ⟨1, 1, 100, RfpStatus.published, some 1, 0, []⟩
      ⟨1, 1, 100, RfpStatus.published, some 1, 1, []⟩ (by decide) (by decide)⟩

/-- C2 witness: the under_review review of Response 1 at time 4
succeeds and stores the outcome, notes, and reviewed_at stamp. -/
theorem c2_witness :
    ∃ r2 : Response,
      runOp (Op.opReviewResponse 4 buyer1 1 ReviewOutcome.underReview
        (some "needs work")) dbD = Except.ok (putResponse dbD r2) ∧
      r2.id = 1 ∧ r2.status = ReviewOutcome.underReview.toStatus ∧
      r2.reviewer_notes = some "needs work" ∧ r2.reviewed_at = some 4 :=
  (c2_review_stamps 4 buyer1 1 ReviewOutcome.underReview (some "needs work") dbD
    ⟨1, 1, 2, "proposal text", RespStatus.submitted, some 3, none, none, []⟩
    ⟨1, 1, 100, RfpStatus.published, some 1, 1, []⟩
    (by decide) (by decide) (by decide)).2.2 (by decide) (by decide) (by decide)

/-- C3 witness: publishing RFP 1 at time 1 yields a stored record whose
published status comes with a present published_at. -/
theorem c3_witness :
    (⟨1, 1, 100, RfpStatus.published, some 1, 0, []⟩ : RFP).published_at ≠ none :=
  c3_publishedAt_invariant (Op.opPublishRFP 1 buyer1 1) dbA (by decide)
    ⟨1, 1, 100, RfpStatus.published, some 1, 0, []⟩ (by decide) (by decide)

/-- C4 witness: creating a Response against published RFP 1 at time
200, past its deadline 100, fails with the expired error. -/
theorem c4_witness :
    runOp (Op.opCreateResponse 200 supplier2 9 ⟨1, "late proposal", none⟩) dbB =
      Except.error ApiError.rfpExpired :=
  c4_deadline_guards.2.1 200 supplier2 9 ⟨1, "late proposal", none⟩ dbB
    ⟨1, 1, 100, RfpStatus.published, some 1, 0, []⟩
    (by decide) (by decide) (by decide) (by decide)

/-- C5 witness: an operation that does not carry a cancelled payload
(here a failing response deletion) only shows a cancelled RFP in its
result because one was already stored. -/
theorem c5_witness :
    ∃ r ∈ dbCancelledAtBirth.rfps, r.status = RfpStatus.cancelled :=
  c5_no_cancelled (Op.opDeleteResponse supplier2 1) dbCancelledAtBirth (by decide)
    ⟨1, 1, 100, RfpStatus.cancelled, none, 0, []⟩ (by decide) (by decide)

/-- C6 witness: supplier 2, who already responded to RFP 1, attempts a
second Response and receives the conflict error. -/
theorem c6_witness :
    runOp (Op.opCreateResponse 4 supplier2 9 ⟨1, "second try", none⟩) dbC =
      Except.error ApiError.responseExists :=
  c6_unique_response.2.1 4 supplier2 9 ⟨1, "second try", none⟩ dbC
    ⟨1, 1, 100, RfpStatus.published, some 1, 0, []⟩
    (by decide) (by decide) (by decide) (by decide) (by decide)

/-- C7 witness: an rfp_document upload with no rfp_id supplied is
rejected with the validation error. -/
theorem c7_witness :
    runOp (Op.opUploadDocument buyer1 8 ⟨DocType.rfp_document, none, none⟩) dbB =
      Except.error ApiError.rfpIdRequired :=
  c7_upload_linkage.1 buyer1 8 ⟨DocType.rfp_document, none, none⟩ dbB
    (by decide) (by decide)

/-- C8 witness: published RFP 1 is individually retrievable by an
anonymous caller. -/
theorem c8_witness :
    getRFPById none 1 dbB =
      Except.ok ⟨1, 1, 100, RfpStatus.published, some 1, 0, []⟩ :=
  c8_visibility.2.2.1 dbB 1 ⟨1, 1, 100, RfpStatus.published, some 1, 0, []⟩ none
    (by decide) (by decide)

/-- C9 witness: closing published RFP 1 at time 200, after its deadline
100 has passed, fails with the validation error and leaves the store
unchanged. -/
theorem c9_witness :
    runOp (Op.opCloseRFP 200 buyer1 1) dbB = Except.error ApiError.validationFailed ∧
    applyOp (Op.opCloseRFP 200 buyer1 1) dbB = dbB :=
  (c9_expired_saves 200 buyer1 1 ⟨300, none⟩ dbB
    ⟨1, 1, 100, RfpStatus.published, some 1, 0, []⟩
    (by decide) (by decide) (by decide)).2.1 (by decide) (by decide)

/-- C10 witness: the owning supplier updates draft Response 1 directly
to approved through the update endpoint at time 3; the update succeeds
and the stored record is approved with submitted_at and reviewed_at
present, with no review action involved. -/
theorem c10_witness :
    ∃ r2 : Response,
      (runOp (Op.opUpdateResponse 3 supplier2 1
        ⟨"proposal text", some RespStatus.approved⟩) dbC).toOption.isSome = true ∧
      findResponse (applyOp (Op.opUpdateResponse 3 supplier2 1
        ⟨"proposal text", some RespStatus.approved⟩) dbC) 1 = some r2 ∧
      r2.status = RespStatus.approved ∧ r2.proposal = "proposal text" ∧
      (RespStatus.approved ≠ RespStatus.draft → r2.submitted_at ≠ none) ∧
      ((RespStatus.approved = RespStatus.approved ∨
        RespStatus.approved = RespStatus.rejected) → r2.reviewed_at ≠ none) :=
  c10_update_copies 3 supplier2 1 ⟨"proposal text", some RespStatus.approved⟩ dbC
    ⟨1, 1, 2, "proposal text", RespStatus.draft, none, none, none, []⟩
    ⟨1, 1, 100, RfpStatus.published, some 1, 0, []⟩
    (by decide) (by decide) (by decide) (by decide) (by decide) (by decide) (by decide)

end RfpBe
